import Mathlib

/-!
# isSame.c: a shallow embedding

`isSame.c` compares two files (or one file and a checksum literal) by forking one
`sha512sum` child per file, capturing the first 128 bytes of each child's standard
output through a pipe, and comparing the captured strings with `strcmp`.

The embedding below follows the parent process of `src/isSame.c` statement by
statement.  The operating system is an explicit state (`Proc`: the open descriptors,
the children launched and not yet reaped, the pipes, and a trace of the operations
performed) together with an environment (`Env`) that fixes everything the program
cannot decide itself: which paths open, whether `sha512sum` can be executed, what a
child writes, which of `pipe`/`fork`/`read` fail, and which terminated child a
`waitpid(-1, ...)` reaps.
-/

namespace IsSame

/-! ## C strings -/

/-- A C string, given by its bytes before the terminating NUL. -/
abbrev CStr := List Nat

/-- The memory seen through a `char *`: the bytes of the string, then the NUL. -/
def cstr (s : CStr) : List Nat := s ++ [0]

/-- Bytes of a text literal. -/
def bytes (s : String) : CStr := s.toList.map Char.toNat

/-- `#define MAX_SIZE 129`. -/
def MAX_SIZE : Nat := 129

/-- `calloc(n, 1)`: a zero-filled buffer of `n` bytes. -/
def calloc (n : Nat) : List Nat := List.replicate n 0

/-- Effect on a buffer of a `read` that delivered `bs` at its start. -/
def store (buf bs : List Nat) : List Nat := bs ++ buf.drop bs.length

/-- `tolower` in the "C" locale (the program never calls `setlocale`). -/
def tolower (c : Nat) : Nat := if 65 ≤ c ∧ c ≤ 90 then c + 32 else c

/-- `strcmp` on two NUL-terminated memory images: the difference of the first pair of
bytes that differ, 0 when a NUL is reached on both sides first. -/
def strcmp : List Nat → List Nat → Int
  | [], [] => 0
  | [], b :: _ => -(b : Int)
  | a :: _, [] => (a : Int)
  | a :: as, b :: bs =>
    if a = b then (if a = 0 then 0 else strcmp as bs) else (a : Int) - (b : Int)

/-- `strcasecmp`: as `strcmp`, on the lower-cased bytes. -/
def strcasecmp : List Nat → List Nat → Int
  | [], [] => 0
  | [], b :: _ => -(tolower b : Int)
  | a :: _, [] => (tolower a : Int)
  | a :: as, b :: bs =>
    if tolower a = tolower b then (if a = 0 then 0 else strcasecmp as bs)
    else (tolower a : Int) - (tolower b : Int)

/-- The literal `"--one-file"` of `main`. -/
def oneFileFlag : CStr := bytes "--one-file"

/-- The test `strcasecmp(a, "--one-file") == 0` of `main`. -/
def isOneFileFlag (a : CStr) : Bool := strcasecmp (cstr a) (cstr oneFileFlag) == 0

/-! ## Process state -/

/-- A pipe created by `pipe()`: its two descriptors and the bytes written and not yet read. -/
structure Pipe where
  rd : Nat
  wr : Nat
  data : List Nat
deriving DecidableEq, Repr

/-- What a child does before it terminates: the bytes it writes to its standard output
and the wait status it leaves (0 is a normal exit with code 0). -/
structure Child where
  output : List Nat
  status : Nat
deriving DecidableEq, Repr

/-- The call sites of `err_sys`, in source order. -/
inductive Fatal
  | cannotOpen (path : CStr)
  | closeFd1
  | doesNotExist (path : CStr)
  | closeFd0
  | pipeFd1
  | fork1
  | readFd1
  | pipeFd2
  | fork2
  | readFd2
  | wait1
  | wait2
  | close10
  | close11
  | close20
  | close21
  | pipeFd
  | forkOne
  | waitOne
  | readFd
deriving DecidableEq, Repr

/-- Operations of the parent process, as recorded in the trace. -/
inductive Event
  | argv (i : Nat)
  | usage
  | openFile (path : CStr) (fd : Option Nat)
  | close (fd : Nat) (ok : Bool)
  | pipe (rd wr : Nat)
  | fork (pid : Nat) (path : CStr) (out : Nat)
  | read (fd : Nat) (got : List Nat)
  | wait (pid : Nat) (status : Nat)
  | strcmp (a b : List Nat)
  | errSys (e : Fatal)
deriving DecidableEq, Repr

/-- The parent process as the program sees it. -/
structure Proc where
  openFds : List Nat
  children : List (Nat × Nat)
  pipes : List Pipe
  lastPid : Nat
  trace : List Event
deriving DecidableEq, Repr

/-- The process at the start of `main`: the inherited descriptors, no child, no pipe. -/
def Proc.start (fds : List Nat) : Proc :=
  { openFds := fds, children := [], pipes := [], lastPid := 0, trace := [] }

/-- Modelled from the spec: `err_sys` is declared in `apue.h`, which is not among the
sources.  The spec gives it as "a descriptive message naming the failing operation/path,
then process termination with a nonzero status reserved for errors (distinct from the
mismatch status)": the status is any value other than 0 and 1. -/
structure ErrSys where
  status : Nat
  nonzero : status ≠ 0
  notMismatch : status ≠ 1

/-- Everything the program does not decide. -/
structure Env where
  /-- Whether `open(path, O_RDONLY)` succeeds. -/
  openable : CStr → Bool
  /-- Whether `execlp("sha512sum", ...)` succeeds in a child. -/
  canExec : Bool
  /-- What `sha512sum path` does once executed. -/
  tool : CStr → Child
  /-- Whether the `pipe`, `fork` or `read` issued after that many trace entries fails. -/
  fails : Nat → Bool
  /-- Which of the unreaped children a `waitpid(-1, ...)` reaps (an index, taken modulo
  their number). -/
  waitPick : List (Nat × Nat) → Nat
  errSys : ErrSys

/-- How a run of the parent ends. -/
inductive Res (α : Type)
  | ret (a : α) (s : Proc)
  | fatal (e : Fatal) (s : Proc)
  | hang (s : Proc)
  | fault (s : Proc)
deriving DecidableEq, Repr

/-- The final state of a run. -/
def Res.state : Res α → Proc
  | .ret _ s => s
  | .fatal _ s => s
  | .hang s => s
  | .fault s => s

/-- A computation of the parent process. -/
def M (α : Type) : Type := Proc → Res α

/-- Sequencing: only a run that returned continues. -/
def M.bind (m : M α) (f : α → M β) : M β := fun s =>
  match m s with
  | .ret a s1 => f a s1
  | .fatal e s1 => .fatal e s1
  | .hang s1 => .hang s1
  | .fault s1 => .fault s1

instance : Monad M where
  pure a := fun s => .ret a s
  bind := M.bind

/-- Append an entry to the trace. -/
def Proc.log (s : Proc) (e : Event) : Proc := { s with trace := s.trace ++ [e] }

/-- The call `err_sys(...)`: the message is printed and the process terminates. -/
def err_sys (e : Fatal) : M α := fun s => .fatal e (s.log (.errSys e))

/-- The idiom `if ((x = call(...)) == -1) err_sys(...)`. -/
def orErr (m : M (Option α)) (e : Fatal) : M α := fun s =>
  match m s with
  | .ret (some a) s1 => .ret a s1
  | .ret none s1 => err_sys e s1
  | .fatal e1 s1 => .fatal e1 s1
  | .hang s1 => .hang s1
  | .fault s1 => .fault s1

/-! ## System calls -/

/-- Search for the lowest number not in `used`, from `n`, in at most `fuel` steps. -/
def lowestFreeFrom (used : List Nat) : Nat → Nat → Nat
  | 0, n => n
  | fuel + 1, n => if n ∈ used then lowestFreeFrom used fuel (n + 1) else n

/-- The lowest descriptor number not in use, which is what `open` and `pipe` hand out. -/
def lowestFree (used : List Nat) : Nat := lowestFreeFrom used used.length 0

/-- Replace the first pipe that satisfies `p`. -/
def updatePipe (p : Pipe → Bool) (f : Pipe → Pipe) : List Pipe → List Pipe
  | [] => []
  | q :: qs => if p q then f q :: qs else q :: updatePipe p f qs

/-- The call `open(path, O_RDONLY)`: `none` stands for -1. -/
def sysOpen (env : Env) (path : CStr) : M (Option Nat) := fun s =>
  if env.openable path then
    let fd := lowestFree s.openFds
    .ret (some fd) { s with openFds := fd :: s.openFds,
                            trace := s.trace ++ [.openFile path (some fd)] }
  else .ret none (s.log (.openFile path none))

/-- The call `close(fd)`: it fails exactly when `fd` is not open. -/
def sysClose (fd : Nat) : M (Option Unit) := fun s =>
  if fd ∈ s.openFds then
    .ret (some ()) { s with openFds := s.openFds.erase fd,
                            trace := s.trace ++ [.close fd true] }
  else .ret none (s.log (.close fd false))

/-- The call `pipe(fd)`: two fresh descriptors, lowest first. -/
def sysPipe (env : Env) : M (Option (Nat × Nat)) := fun s =>
  if env.fails s.trace.length then .ret none s
  else
    let r := lowestFree s.openFds
    let w := lowestFree (r :: s.openFds)
    .ret (some (r, w)) { s with openFds := w :: r :: s.openFds,
                                pipes := { rd := r, wr := w, data := [] } :: s.pipes,
                                trace := s.trace ++ [.pipe r w] }

/-- The program of a child (the `p == 0` branch): its standard output is redirected to
the write end of the pipe with `dup2`, then `execlp("sha512sum", "sha512sum", path, 0)`
replaces it; when `execlp` fails it calls `err_sys`, which writes to standard error. -/
def runChild (env : Env) (path : CStr) : Child :=
  if env.canExec then env.tool path
  else { output := [], status := 256 * env.errSys.status }

/-- The call `fork()` as seen by the parent, together with what the child then does:
the child is recorded as launched and its output lands in the pipe whose write end is
`out`.  The pid returned to the parent is positive. -/
def sysFork (env : Env) (path : CStr) (out : Nat) : M (Option Nat) := fun s =>
  if env.fails s.trace.length then .ret none s
  else
    let pid := s.lastPid + 1
    let c := runChild env path
    .ret (some pid) { s with children := (pid, c.status) :: s.children,
                             pipes := updatePipe (fun p => p.wr == out)
                               (fun p => { p with data := p.data ++ c.output }) s.pipes,
                             lastPid := pid,
                             trace := s.trace ++ [.fork pid path out] }

/-- The call `read(fd, buf, n)` on the read end of a pipe.  With no byte in the pipe the
call blocks for as long as a write end is open, and the parent itself holds one. -/
def sysRead (env : Env) (fd n : Nat) : M (Option (List Nat)) := fun s =>
  if fd ∉ s.openFds ∨ env.fails s.trace.length then .ret none s
  else
    match s.pipes.find? (fun p => p.rd == fd) with
    | none => .ret none s
    | some p =>
      if p.data = [] then
        (if p.wr ∈ s.openFds then .hang s else .ret (some []) (s.log (.read fd [])))
      else
        .ret (some (p.data.take n))
          { s with pipes := updatePipe (fun q => q.rd == fd)
                              (fun q => { q with data := q.data.drop n }) s.pipes,
                   trace := s.trace ++ [.read fd (p.data.take n)] }

/-- The child a `waitpid(-1, ...)` reaps among the unreaped ones, and those that remain;
`none` when there is no child. -/
def reap (env : Env) (cs : List (Nat × Nat)) : Option ((Nat × Nat) × List (Nat × Nat)) :=
  match cs.get? (env.waitPick cs % cs.length) with
  | none => none
  | some c => some (c, cs.eraseIdx (env.waitPick cs % cs.length))

/-- The call `waitpid(-1, &status, 0)`: it fails when there is no child, and otherwise
reaps one of them.  The status it stores is returned with the pid. -/
def sysWaitpid (env : Env) : M (Option (Nat × Nat)) := fun s =>
  match reap env s.children with
  | none => .ret none s
  | some (c, rest) =>
    .ret (some c) { s with children := rest, trace := s.trace ++ [.wait c.1 c.2] }

/-- Record an operation of the program itself. -/
def emit (e : Event) : M Unit := fun s => .ret () (s.log e)

/-! ## The program -/

/-- The function `checkTwoFiles` of `isSame.c`, parent side. -/
def checkTwoFiles (env : Env) (arg1 arg2 : CStr) : M Int := do
  let sum1 := calloc MAX_SIZE
  let sum2 := calloc MAX_SIZE
  let fd1 ← orErr (sysPipe env) .pipeFd1
  let _p1 ← orErr (sysFork env arg1 fd1.2) .fork1
  let got1 ← orErr (sysRead env fd1.1 128) .readFd1
  let sum1 := store sum1 got1
  let fd2 ← orErr (sysPipe env) .pipeFd2
  let _p2 ← orErr (sysFork env arg2 fd2.2) .fork2
  let got2 ← orErr (sysRead env fd2.1 128) .readFd2
  let sum2 := store sum2 got2
  let _ ← orErr (sysWaitpid env) .wait1
  let _ ← orErr (sysWaitpid env) .wait2
  orErr (sysClose fd1.1) .close10
  orErr (sysClose fd1.2) .close11
  orErr (sysClose fd2.1) .close20
  orErr (sysClose fd2.2) .close21
  emit (.strcmp sum1 sum2)
  if strcmp sum1 sum2 = 0 then return 0 else return 1

/-- The function `checkOneFile` of `isSame.c`, parent side. -/
def checkOneFile (env : Env) (arg1 arg2 : CStr) : M Int := do
  let sum1 := calloc MAX_SIZE
  let fd ← orErr (sysPipe env) .pipeFd
  let _p1 ← orErr (sysFork env arg1 fd.2) .forkOne
  let _ ← orErr (sysWaitpid env) .waitOne
  let got ← orErr (sysRead env fd.1 128) .readFd
  let sum1 := store sum1 got
  emit (.strcmp sum1 (cstr arg2))
  if strcmp sum1 (cstr arg2) = 0 then return 0 else return 1

/-- Evaluation of `argv[i]`; an index at or past `argc` does not yield a string. -/
def argvGet (argv : List CStr) (i : Nat) : M CStr := fun s =>
  match argv.get? i with
  | some a => .ret a (s.log (.argv i))
  | none => .fault (s.log (.argv i))

/-- The function `main` of `isSame.c`; `argc` is the length of `argv`. -/
def main (env : Env) (argv : List CStr) : M Int := do
  let argc := argv.length
  let short ← (if argc < 3 then pure true else do
    let a1 ← argvGet argv 1
    pure (isOneFileFlag a1 && decide (argc < 4)))
  if short then do
    emit .usage
    return (-1)
  else do
    let a1 ← argvGet argv 1
    let fd0 ← (if !isOneFileFlag a1 then do
        let a1 ← argvGet argv 1
        let fd0 ← orErr (sysOpen env a1) (.cannotOpen a1)
        let a2 ← argvGet argv 2
        let fd1 ← orErr (sysOpen env a2) (.cannotOpen a2)
        orErr (sysClose fd1) .closeFd1
        pure fd0
      else do
        let a2 ← argvGet argv 2
        orErr (sysOpen env a2) (.doesNotExist a2))
    orErr (sysClose fd0) .closeFd0
    let a1 ← argvGet argv 1
    if isOneFileFlag a1 then do
      let a2 ← argvGet argv 2
      let a3 ← argvGet argv 3
      checkOneFile env a2 a3
    else do
      let a1 ← argvGet argv 1
      let a2 ← argvGet argv 2
      checkTwoFiles env a1 a2

/-- The exit status of the process: the low byte of what `main` returns, the status of
`err_sys` after a fatal error, none when the process does not terminate normally. -/
def exitStatus (env : Env) : Res Int → Option Nat
  | .ret v _ => some (v % 256).toNat
  | .fatal _ _ => some env.errSys.status
  | .hang _ => none
  | .fault _ => none

/-! ## The external digest tool -/

/-- A lower-case hexadecimal digit. -/
def isLowerHex (b : Nat) : Bool := (48 ≤ b && b ≤ 57) || (97 ≤ b && b ≤ 102)

/-- A SHA-512 digest in text form: 128 lower-case hexadecimal digits. -/
def IsDigest (d : List Nat) : Prop := d.length = 128 ∧ ∀ b ∈ d, isLowerHex b = true

/-- Modelled from the spec: the external tool `sha512sum` is not part of the sources.
On a readable file it "produces a line containing the 512-bit cryptographic digest of
that file's contents in lowercase hexadecimal, optionally followed by the file path,
terminated by a line break" and exits normally; on a file it cannot read it writes
nothing to standard output and exits with status 1. -/
def sha512sum (digest : List Nat → List Nat) (fs : CStr → Option (List Nat))
    (path : CStr) : Child :=
  match fs path with
  | some content => { output := digest content ++ [32, 32] ++ path ++ [10], status := 0 }
  | none => { output := [], status := 256 }

/-! ## Vocabulary of the statements -/

/-- Every entry that a computation appends to the trace satisfies `P`. -/
def Adds (P : Event → Prop) (m : M α) : Prop :=
  ∀ s, ∃ l, (m s).state.trace = s.trace ++ l ∧ ∀ e ∈ l, P e

/-- The entries `checkTwoFiles` and `checkOneFile` can append when called on `paths`. -/
def Event.inCheck (paths : List CStr) : Event → Prop
  | .argv _ => False
  | .usage => False
  | .openFile _ _ => False
  | .fork _ p _ => p ∈ paths
  | _ => True

/-- The paths that an `open` of the trace opened successfully. -/
def opened : List Event → List CStr
  | [] => []
  | .openFile p (some _) :: es => p :: opened es
  | _ :: es => opened es

/-- `toupper` in the "C" locale. -/
def toupper (c : Nat) : Nat := if 97 ≤ c ∧ c ≤ 122 then c - 32 else c

/-- A digest function for the examples: it only looks at the length of the contents. -/
def demoDigest (content : List Nat) : List Nat := List.replicate 128 (48 + content.length % 10)

/-- A file system for the examples: `a` and `c` are empty files, `b` holds one byte. -/
def demoFs (path : CStr) : Option (List Nat) :=
  if path = [97] then some []
  else if path = [98] then some [1]
  else if path = [99] then some []
  else none

/-- An environment for the examples: every system call succeeds. -/
def demoEnv : Env :=
  { openable := fun p => (demoFs p).isSome,
    canExec := true,
    tool := sha512sum demoDigest demoFs,
    fails := fun _ => false,
    waitPick := fun _ => 0,
    errSys := { status := 2, nonzero := by decide, notMismatch := by decide } }

/-- An environment in which the first child is killed by signal 9 after it has written
its line: its wait status is 9. -/
def killedEnv : Env :=
  { demoEnv with
    tool := fun p =>
      if p = [97] then { (sha512sum demoDigest demoFs p) with status := 9 }
      else sha512sum demoDigest demoFs p }

/-- The argument-count test of the usage branch, in the words of the interface: fewer
than two arguments after the command name, or the one-file flag (whatever its case) with
fewer than three. -/
def tooFewArgs (argv : List CStr) : Bool :=
  decide (argv.length < 3) ||
    ((argv.getD 1 []).map tolower == oneFileFlag && decide (argv.length < 4))

/-- The `err_sys` call reached when the `k`-th `pipe`/`fork`/`read` of `checkTwoFiles`
fails, counting from 0. -/
def twoFilesSite : Nat → Fatal
  | 0 => .pipeFd1
  | 1 => .fork1
  | 2 => .readFd1
  | 3 => .pipeFd2
  | 4 => .fork2
  | _ => .readFd2

/-- An environment in which the first `fork` fails. -/
def forkFailEnv : Env := { demoEnv with fails := fun n => n == 1 }

/-! ## Lemmas -/

/-- The search finds a free number when its fuel covers the numbers in use from `n` on. -/
theorem lowestFreeFrom_not_mem (used : List Nat) :
    ∀ (fuel n : Nat), (used.filter (fun k => decide (n ≤ k))).length ≤ fuel →
      lowestFreeFrom used fuel n ∉ used := by
  intro fuel
  induction fuel with
  | zero =>
    intro n h hmem
    have hnil : used.filter (fun k => decide (n ≤ k)) = [] := List.length_eq_zero.mp (Nat.le_zero.mp h)
    have : n ∈ used.filter (fun k => decide (n ≤ k)) := by
      simp only [lowestFreeFrom] at hmem
      simp [List.mem_filter, hmem]
    rw [hnil] at this
    simp at this
  | succ fuel ih =>
    intro n h
    simp only [lowestFreeFrom]
    split
    · rename_i hn
      apply ih
      have hlt : (used.filter (fun k => decide (n + 1 ≤ k))).length
          < (used.filter (fun k => decide (n ≤ k))).length := by
        have hsub : used.filter (fun k => decide (n + 1 ≤ k))
            = (used.filter (fun k => decide (n ≤ k))).filter (fun k => decide (n + 1 ≤ k)) := by
          rw [List.filter_filter]
          congr 1
          funext k
          by_cases hk : n + 1 ≤ k
          · have : n ≤ k := by omega
            simp [hk, this]
          · simp [hk]
        rw [hsub]
        apply List.length_filter_lt_length_iff_exists.mpr
        exact ⟨n, by simp [List.mem_filter, hn], by simp⟩
      omega
    · assumption

/-- The descriptor handed out is not one already in use. -/
theorem lowestFree_not_mem (used : List Nat) : lowestFree used ∉ used := by
  apply lowestFreeFrom_not_mem
  exact List.length_filter_le _ _

/-- On strings without NUL, `strcmp` is 0 exactly when the strings are equal. -/
theorem strcmp_eq_zero_iff (a : List Nat) :
    ∀ (b x y : List Nat), (∀ c ∈ a, c ≠ 0) → (∀ c ∈ b, c ≠ 0) →
      (strcmp (a ++ 0 :: x) (b ++ 0 :: y) = 0 ↔ a = b) := by
  induction a with
  | nil =>
    intro b x y _ hb
    cases b with
    | nil => simp [strcmp]
    | cons c cs =>
      have hc : c ≠ 0 := hb c (by simp)
      have hc2 : ¬ (0 = c) := fun h => hc h.symm
      simp [strcmp, hc2]
      omega
  | cons c cs ih =>
    intro b x y ha hb
    have hc : c ≠ 0 := ha c (by simp)
    cases b with
    | nil =>
      simp [strcmp, hc]
    | cons d ds =>
      by_cases hcd : c = d
      · subst hcd
        have := ih ds x y (fun e he => ha e (by simp [he])) (fun e he => hb e (by simp [he]))
        simp [strcmp, hc, this]
      · simp [strcmp, hcd]
        omega

/-- A `read` of 128 bytes of a line that starts with a 128-byte digest leaves the digest and
a NUL in the buffer. -/
theorem store_calloc (d rest : List Nat) (hd : d.length = 128) :
    store (calloc MAX_SIZE) ((d ++ rest).take 128) = d ++ [0] := by
  have : (d ++ rest).take 128 = d := by
    rw [← hd]; simp
  rw [this]
  simp [store, calloc, MAX_SIZE, hd]

/-- Taking one element out of a list keeps the others. -/
theorem perm_cons_eraseIdx {α : Type} : ∀ (l : List α) (i : Nat) (c : α),
    l.get? i = some c → l.Perm (c :: l.eraseIdx i) := by
  intro l
  induction l with
  | nil => intro i c h; simp at h
  | cons a l ih =>
    intro i c h
    cases i with
    | zero =>
      simp at h
      subst h
      simp
    | succ i =>
      simp at h
      have := ih i c (by simpa using h)
      simp only [List.eraseIdx_cons_succ]
      exact (List.Perm.cons a this).trans (List.Perm.swap c a _)

/-- With a child to wait for, `waitpid` reaps one and leaves the others. -/
theorem reap_cons (env : Env) (a : Nat × Nat) (l : List (Nat × Nat)) :
    ∃ c rest, reap env (a :: l) = some (c, rest) ∧ (a :: l).Perm (c :: rest) := by
  have hlt : env.waitPick (a :: l) % (a :: l).length < (a :: l).length :=
    Nat.mod_lt _ (by simp)
  obtain ⟨c, hc⟩ : ∃ c, (a :: l).get? (env.waitPick (a :: l) % (a :: l).length) = some c :=
    ⟨_, List.get?_eq_get hlt⟩
  refine ⟨c, (a :: l).eraseIdx (env.waitPick (a :: l) % (a :: l).length), ?_, ?_⟩
  · simp only [reap, hc]
  · exact perm_cons_eraseIdx _ _ _ hc

/-- The run of `checkOneFile` when no call fails and the child writes something. -/
theorem checkOneFile_run (env : Env) (arg1 arg2 : CStr) (s : Proc)
    (hf : ∀ n, env.fails n = false) (hout : (runChild env arg1).output ≠ []) :
    ∃ c rest, ((s.lastPid + 1, (runChild env arg1).status) :: s.children).Perm (c :: rest) ∧
      checkOneFile env arg1 arg2 s =
        .ret (if strcmp (store (calloc MAX_SIZE) ((runChild env arg1).output.take 128))
                  (cstr arg2) = 0 then 0 else 1)
          { openFds := lowestFree (lowestFree s.openFds :: s.openFds)
                        :: lowestFree s.openFds :: s.openFds,
            children := rest,
            pipes := { rd := lowestFree s.openFds,
                       wr := lowestFree (lowestFree s.openFds :: s.openFds),
                       data := (runChild env arg1).output.drop 128 } :: s.pipes,
            lastPid := s.lastPid + 1,
            trace := s.trace ++
              [.pipe (lowestFree s.openFds) (lowestFree (lowestFree s.openFds :: s.openFds)),
               .fork (s.lastPid + 1) arg1 (lowestFree (lowestFree s.openFds :: s.openFds)),
               .wait c.1 c.2,
               .read (lowestFree s.openFds) ((runChild env arg1).output.take 128),
               .strcmp (store (calloc MAX_SIZE) ((runChild env arg1).output.take 128))
                 (cstr arg2)] } := by
  obtain ⟨c, rest, hr, hp⟩ := reap_cons env (s.lastPid + 1, (runChild env arg1).status) s.children
  refine ⟨c, rest, hp, ?_⟩
  simp [checkOneFile, bind, M.bind, orErr, sysPipe, sysFork, sysWaitpid, sysRead, emit, Proc.log,
    updatePipe, hf, hr, hout, pure]
  split <;> rfl

/-- The run of `checkTwoFiles` when no call fails and both children write something. -/
theorem checkTwoFiles_run (env : Env) (arg1 arg2 : CStr) (s : Proc)
    (hf : ∀ n, env.fails n = false) (h1 : (runChild env arg1).output ≠ [])
    (h2 : (runChild env arg2).output ≠ []) :
    ∃ r1 w1 r2 w2 c1 c2 rest,
      [r1, w1, r2, w2].Nodup ∧ (∀ fd ∈ [r1, w1, r2, w2], fd ∉ s.openFds) ∧
      ((s.lastPid + 2, (runChild env arg2).status) ::
        (s.lastPid + 1, (runChild env arg1).status) :: s.children).Perm (c1 :: c2 :: rest) ∧
      checkTwoFiles env arg1 arg2 s =
        .ret (if strcmp (store (calloc MAX_SIZE) ((runChild env arg1).output.take 128))
                  (store (calloc MAX_SIZE) ((runChild env arg2).output.take 128)) = 0
              then 0 else 1)
          { openFds := s.openFds,
            children := rest,
            pipes := { rd := r2, wr := w2, data := (runChild env arg2).output.drop 128 } ::
                     { rd := r1, wr := w1, data := (runChild env arg1).output.drop 128 } ::
                     s.pipes,
            lastPid := s.lastPid + 2,
            trace := s.trace ++
              [.pipe r1 w1, .fork (s.lastPid + 1) arg1 w1,
               .read r1 ((runChild env arg1).output.take 128),
               .pipe r2 w2, .fork (s.lastPid + 2) arg2 w2,
               .read r2 ((runChild env arg2).output.take 128),
               .wait c1.1 c1.2, .wait c2.1 c2.2,
               .close r1 true, .close w1 true, .close r2 true, .close w2 true,
               .strcmp (store (calloc MAX_SIZE) ((runChild env arg1).output.take 128))
                 (store (calloc MAX_SIZE) ((runChild env arg2).output.take 128))] } := by
  obtain ⟨c1, rest1, hr1, hp1⟩ := reap_cons env (s.lastPid + 2, (runChild env arg2).status)
    ((s.lastPid + 1, (runChild env arg1).status) :: s.children)
  obtain ⟨d, rest2, hrest1⟩ : ∃ d rest2, rest1 = d :: rest2 := by
    cases rest1 with
    | nil => have := hp1.length_eq; simp at this
    | cons d rest2 => exact ⟨d, rest2, rfl⟩
  subst hrest1
  obtain ⟨c2, rest, hr2, hp2⟩ := reap_cons env d rest2
  have hA := lowestFree_not_mem s.openFds
  have hB := lowestFree_not_mem (lowestFree s.openFds :: s.openFds)
  have hC := lowestFree_not_mem
    (lowestFree (lowestFree s.openFds :: s.openFds) :: lowestFree s.openFds :: s.openFds)
  have hD := lowestFree_not_mem
    (lowestFree (lowestFree (lowestFree s.openFds :: s.openFds) :: lowestFree s.openFds
        :: s.openFds) ::
      lowestFree (lowestFree s.openFds :: s.openFds) :: lowestFree s.openFds :: s.openFds)
  simp only [List.mem_cons, not_or] at hB hC hD
  obtain ⟨hB1, hB2⟩ := hB
  obtain ⟨hC1, hC2, hC3⟩ := hC
  obtain ⟨hD1, hD2, hD3, hD4⟩ := hD
  refine ⟨lowestFree s.openFds, lowestFree (lowestFree s.openFds :: s.openFds),
    lowestFree (lowestFree (lowestFree s.openFds :: s.openFds) :: lowestFree s.openFds
        :: s.openFds),
    lowestFree (lowestFree (lowestFree (lowestFree s.openFds :: s.openFds)
        :: lowestFree s.openFds :: s.openFds) ::
      lowestFree (lowestFree s.openFds :: s.openFds) :: lowestFree s.openFds :: s.openFds),
    c1, c2, rest, ?_, ?_, ?_, ?_⟩
  · simp [hB1, hC1, hC2, hD1, hD2, hD3, Ne.symm hB1, Ne.symm hC1, Ne.symm hC2, Ne.symm hD1,
      Ne.symm hD2, Ne.symm hD3]
  · simp [hA, hB2, hC3, hD4]
  · exact hp1.trans (List.Perm.cons c1 hp2)
  · simp [checkTwoFiles, bind, M.bind, orErr, sysPipe, sysFork, sysWaitpid, sysRead, sysClose,
      emit, Proc.log, updatePipe, hf, hr1, hr2, h1, h2, pure,
      hB1, hC1, hC2, hD1, hD2, hD3, Ne.symm hB1, Ne.symm hC1, Ne.symm hC2, Ne.symm hD1,
      Ne.symm hD2, Ne.symm hD3]
    split <;> rfl

theorem Adds.pure {P : Event → Prop} (a : α) : Adds P (pure a : M α) := by
  intro s
  exact ⟨[], by simp [Pure.pure, Res.state], by simp⟩

theorem Adds.bind {P : Event → Prop} {m : M α} {f : α → M β} (hm : Adds P m)
    (hf : ∀ a, Adds P (f a)) : Adds P (m >>= f) := by
  intro s
  obtain ⟨l, hl, hP⟩ := hm s
  show ∃ l, (M.bind m f s).state.trace = s.trace ++ l ∧ ∀ e ∈ l, P e
  unfold M.bind
  cases hms : m s with
  | ret a s1 =>
    rw [hms] at hl
    obtain ⟨l2, hl2, hP2⟩ := hf a s1
    refine ⟨l ++ l2, ?_, ?_⟩
    · simp only [Res.state] at hl
      simp [hl2, hl]
    · intro e he
      rcases List.mem_append.mp he with h | h
      · exact hP e h
      · exact hP2 e h
  | fatal e s1 => rw [hms] at hl; exact ⟨l, hl, hP⟩
  | hang s1 => rw [hms] at hl; exact ⟨l, hl, hP⟩
  | fault s1 => rw [hms] at hl; exact ⟨l, hl, hP⟩

theorem Adds.orErr {P : Event → Prop} {m : M (Option α)} (e : Fatal) (hm : Adds P m)
    (he : P (.errSys e)) : Adds P (orErr m e) := by
  intro s
  obtain ⟨l, hl, hP⟩ := hm s
  unfold IsSame.orErr
  cases hms : m s with
  | ret a s1 =>
    rw [hms] at hl
    cases a with
    | none =>
      refine ⟨l ++ [.errSys e], ?_, ?_⟩
      · simp only [Res.state] at hl
        simp [err_sys, Proc.log, Res.state, hl]
      · intro x hx
        rcases List.mem_append.mp hx with h | h
        · exact hP x h
        · simp at h; subst h; exact he
    | some a => exact ⟨l, hl, hP⟩
  | fatal e s1 => rw [hms] at hl; exact ⟨l, hl, hP⟩
  | hang s1 => rw [hms] at hl; exact ⟨l, hl, hP⟩
  | fault s1 => rw [hms] at hl; exact ⟨l, hl, hP⟩

theorem Adds.ite {P : Event → Prop} {c : Prop} [Decidable c] {a b : M α} (ha : Adds P a)
    (hb : Adds P b) : Adds P (if c then a else b) := by
  split
  · exact ha
  · exact hb

theorem Adds.emit {P : Event → Prop} (e : Event) (he : P e) : Adds P (emit e) := by
  intro s
  exact ⟨[e], by simp [IsSame.emit, Proc.log, Res.state], by simpa using he⟩

theorem Adds.argvGet {P : Event → Prop} (argv : List CStr) (i : Nat) (he : P (.argv i)) :
    Adds P (argvGet argv i) := by
  intro s
  refine ⟨[.argv i], ?_, by simpa using he⟩
  unfold IsSame.argvGet
  split <;> simp [Proc.log, Res.state]

theorem Adds.sysOpen {P : Event → Prop} (env : Env) (path : CStr)
    (he : ∀ fd, P (.openFile path fd)) : Adds P (sysOpen env path) := by
  intro s
  unfold IsSame.sysOpen
  split
  · exact ⟨[.openFile path (some (lowestFree s.openFds))], by simp [Res.state],
      by simpa using he _⟩
  · exact ⟨[.openFile path none], by simp [Res.state, Proc.log], by simpa using he _⟩

theorem Adds.sysClose {P : Event → Prop} (fd : Nat) (he : ∀ ok, P (.close fd ok)) :
    Adds P (sysClose fd) := by
  intro s
  unfold IsSame.sysClose
  split
  · exact ⟨[.close fd true], by simp [Res.state], by simpa using he _⟩
  · exact ⟨[.close fd false], by simp [Res.state, Proc.log], by simpa using he _⟩

theorem Adds.sysPipe {P : Event → Prop} (env : Env) (he : ∀ r w, P (.pipe r w)) :
    Adds P (sysPipe env) := by
  intro s
  unfold IsSame.sysPipe
  split
  · exact ⟨[], by simp [Res.state], by simp⟩
  · exact ⟨_, rfl, by simpa using he _ _⟩

theorem Adds.sysFork {P : Event → Prop} (env : Env) (path : CStr) (out : Nat)
    (he : ∀ pid, P (.fork pid path out)) : Adds P (sysFork env path out) := by
  intro s
  unfold IsSame.sysFork
  split
  · exact ⟨[], by simp [Res.state], by simp⟩
  · exact ⟨_, rfl, by simpa using he _⟩

theorem Adds.sysRead {P : Event → Prop} (env : Env) (fd n : Nat)
    (he : ∀ got, P (.read fd got)) : Adds P (sysRead env fd n) := by
  intro s
  unfold IsSame.sysRead
  split
  · exact ⟨[], by simp [Res.state], by simp⟩
  · split
    · exact ⟨[], by simp [Res.state], by simp⟩
    · split
      · split
        · exact ⟨[], by simp [Res.state], by simp⟩
        · exact ⟨[.read fd []], by simp [Res.state, Proc.log], by simpa using he _⟩
      · exact ⟨_, rfl, by simpa using he _⟩

theorem Adds.sysWaitpid {P : Event → Prop} (env : Env) (he : ∀ pid st, P (.wait pid st)) :
    Adds P (sysWaitpid env) := by
  intro s
  unfold IsSame.sysWaitpid
  split
  · exact ⟨[], by simp [Res.state], by simp⟩
  · exact ⟨_, rfl, by simpa using he _ _⟩

theorem Adds.checkTwoFiles (env : Env) (arg1 arg2 : CStr) :
    Adds (Event.inCheck [arg1, arg2]) (checkTwoFiles env arg1 arg2) := by
  unfold IsSame.checkTwoFiles
  repeat (first
    | apply Adds.bind
    | apply Adds.orErr
    | apply Adds.ite
    | apply Adds.pure
    | apply Adds.sysPipe
    | apply Adds.sysFork
    | apply Adds.sysRead
    | apply Adds.sysWaitpid
    | apply Adds.sysClose
    | apply Adds.emit
    | intro _
    | simp [Event.inCheck])

theorem Adds.checkOneFile (env : Env) (arg1 arg2 : CStr) :
    Adds (Event.inCheck [arg1]) (checkOneFile env arg1 arg2) := by
  unfold IsSame.checkOneFile
  repeat (first
    | apply Adds.bind
    | apply Adds.orErr
    | apply Adds.ite
    | apply Adds.pure
    | apply Adds.sysPipe
    | apply Adds.sysFork
    | apply Adds.sysRead
    | apply Adds.sysWaitpid
    | apply Adds.sysClose
    | apply Adds.emit
    | intro _
    | simp [Event.inCheck])

/-- Only NUL lower-cases to NUL. -/
theorem tolower_eq_zero (c : Nat) : tolower c = 0 ↔ c = 0 := by
  unfold tolower
  split <;> omega

/-- On strings without NUL, `strcasecmp` is 0 exactly when the lower-cased strings are
equal. -/
theorem strcasecmp_eq_zero_iff (a : List Nat) :
    ∀ (b x y : List Nat), (∀ c ∈ a, c ≠ 0) → (∀ c ∈ b, c ≠ 0) →
      (strcasecmp (a ++ 0 :: x) (b ++ 0 :: y) = 0 ↔ a.map tolower = b.map tolower) := by
  induction a with
  | nil =>
    intro b x y _ hb
    cases b with
    | nil => simp [strcasecmp]
    | cons c cs =>
      have hc : c ≠ 0 := hb c (by simp)
      have h0 : tolower 0 = 0 := by decide
      have hc2 : ¬ (0 = tolower c) := fun h => hc ((tolower_eq_zero c).mp h.symm)
      have hc3 : ¬ (tolower c = 0) := fun h => hc ((tolower_eq_zero c).mp h)
      simp [strcasecmp, h0, hc2]
      omega
  | cons c cs ih =>
    intro b x y ha hb
    have hc : c ≠ 0 := ha c (by simp)
    have h0 : tolower 0 = 0 := by decide
    have hc3 : ¬ (tolower c = 0) := fun h => hc ((tolower_eq_zero c).mp h)
    cases b with
    | nil =>
      simp [strcasecmp, hc, h0, hc3]
    | cons d ds =>
      by_cases hcd : tolower c = tolower d
      · have := ih ds x y (fun e he => ha e (by simp [he])) (fun e he => hb e (by simp [he]))
        simp [strcasecmp, hc, this, hcd]
      · simp [strcasecmp, hcd]
        omega

/-- The test of `main` recognises the flag up to ASCII case. -/
theorem isOneFileFlag_iff (a : CStr) (ha : ∀ c ∈ a, c ≠ 0) :
    isOneFileFlag a = true ↔ a.map tolower = oneFileFlag := by
  have hflag : oneFileFlag.map tolower = oneFileFlag := by decide
  have hnz : ∀ c ∈ oneFileFlag, c ≠ 0 := by decide
  have := strcasecmp_eq_zero_iff a oneFileFlag [] [] ha hnz
  rw [hflag] at this
  simp only [isOneFileFlag, cstr, beq_iff_eq]
  exact this

/-- With fewer than three arguments `main` prints the usage message without reading `argv`.
-/
theorem main_short (env : Env) (argv : List CStr) (s : Proc) (h : argv.length < 3) :
    main env argv s = .ret (-1) (s.log .usage) := by
  simp [main, bind, M.bind, h, pure, emit]

/-- With the flag and a single further argument `main` prints the usage message. -/
theorem main_flag_short (env : Env) (a0 a1 a2 : CStr) (s : Proc)
    (h : isOneFileFlag a1 = true) :
    main env [a0, a1, a2] s = .ret (-1) ((s.log (.argv 1)).log .usage) := by
  simp [main, bind, M.bind, h, pure, emit, argvGet]

/-- Two-file mode with both files opening: `main` reaches `checkTwoFiles`. -/
theorem main_two (env : Env) (a0 a1 a2 : CStr) (rest : List CStr) (s : Proc)
    (h : isOneFileFlag a1 = false) (h1 : env.openable a1 = true)
    (h2 : env.openable a2 = true) :
    main env (a0 :: a1 :: a2 :: rest) s =
      checkTwoFiles env a1 a2
        { s with trace := s.trace ++
            [.argv 1, .argv 1, .argv 1, .openFile a1 (some (lowestFree s.openFds)),
             .argv 2, .openFile a2 (some (lowestFree (lowestFree s.openFds :: s.openFds))),
             .close (lowestFree (lowestFree s.openFds :: s.openFds)) true,
             .close (lowestFree s.openFds) true, .argv 1, .argv 1, .argv 2] } := by
  have hlen : ¬ (rest.length + 1 + 1 + 1 < 3) := by omega
  simp [main, bind, M.bind, h, h1, h2, pure, emit, argvGet, orErr, sysOpen, sysClose, Proc.log,
    hlen]

/-- One-file mode with the file opening: `main` reaches `checkOneFile`. -/
theorem main_one (env : Env) (a0 a1 a2 a3 : CStr) (rest : List CStr) (s : Proc)
    (h : isOneFileFlag a1 = true) (h2 : env.openable a2 = true) :
    main env (a0 :: a1 :: a2 :: a3 :: rest) s =
      checkOneFile env a2 a3
        { s with trace := s.trace ++
            [.argv 1, .argv 1, .argv 2, .openFile a2 (some (lowestFree s.openFds)),
             .close (lowestFree s.openFds) true, .argv 1, .argv 2, .argv 3] } := by
  have hlen : ¬ (rest.length + 1 + 1 + 1 + 1 < 3) := by omega
  have hlen4 : ¬ (rest.length + 1 + 1 + 1 + 1 < 4) := by omega
  simp [main, bind, M.bind, h, h2, pure, emit, argvGet, orErr, sysOpen, sysClose, Proc.log,
    hlen, hlen4]

/-- Two-file mode, first file not opening. -/
theorem main_two_bad1 (env : Env) (a0 a1 a2 : CStr) (rest : List CStr) (s : Proc)
    (h : isOneFileFlag a1 = false) (h1 : env.openable a1 = false) :
    main env (a0 :: a1 :: a2 :: rest) s =
      .fatal (.cannotOpen a1)
        { s with trace := s.trace ++
            [.argv 1, .argv 1, .argv 1, .openFile a1 none, .errSys (.cannotOpen a1)] } := by
  have hlen : ¬ (rest.length + 1 + 1 + 1 < 3) := by omega
  simp [main, bind, M.bind, h, h1, pure, emit, argvGet, orErr, sysOpen, sysClose, Proc.log,
    err_sys, hlen]

/-- Two-file mode, second file not opening. -/
theorem main_two_bad2 (env : Env) (a0 a1 a2 : CStr) (rest : List CStr) (s : Proc)
    (h : isOneFileFlag a1 = false) (h1 : env.openable a1 = true)
    (h2 : env.openable a2 = false) :
    main env (a0 :: a1 :: a2 :: rest) s =
      .fatal (.cannotOpen a2)
        { s with openFds := lowestFree s.openFds :: s.openFds
                 trace := s.trace ++
            [.argv 1, .argv 1, .argv 1, .openFile a1 (some (lowestFree s.openFds)),
             .argv 2, .openFile a2 none, .errSys (.cannotOpen a2)] } := by
  have hlen : ¬ (rest.length + 1 + 1 + 1 < 3) := by omega
  simp [main, bind, M.bind, h, h1, h2, pure, emit, argvGet, orErr, sysOpen, sysClose, Proc.log,
    err_sys, hlen]

/-- One-file mode, file not opening. -/
theorem main_one_bad (env : Env) (a0 a1 a2 a3 : CStr) (rest : List CStr) (s : Proc)
    (h : isOneFileFlag a1 = true) (h2 : env.openable a2 = false) :
    main env (a0 :: a1 :: a2 :: a3 :: rest) s =
      .fatal (.doesNotExist a2)
        { s with trace := s.trace ++
            [.argv 1, .argv 1, .argv 2, .openFile a2 none, .errSys (.doesNotExist a2)] } := by
  have hlen : ¬ (rest.length + 1 + 1 + 1 + 1 < 3) := by omega
  have hlen4 : ¬ (rest.length + 1 + 1 + 1 + 1 < 4) := by omega
  simp [main, bind, M.bind, h, h2, pure, emit, argvGet, orErr, sysOpen, sysClose, Proc.log,
    err_sys, hlen, hlen4]

/-- A hexadecimal digit is not NUL. -/
theorem isLowerHex_ne_zero (b : Nat) (h : isLowerHex b = true) : b ≠ 0 := by
  intro hb
  subst hb
  simp [isLowerHex] at h

/-- A digest holds no NUL. -/
theorem IsDigest.ne_zero {d : List Nat} (hd : IsDigest d) : ∀ b ∈ d, b ≠ 0 :=
  fun b hb => isLowerHex_ne_zero b (hd.2 b hb)

/-- The child of a readable file writes the digest line and exits normally. -/
theorem runChild_sha512sum (env : Env) (digest : List Nat → List Nat)
    (fs : CStr → Option (List Nat)) (path : CStr) (c : List Nat)
    (hx : env.canExec = true) (ht : env.tool = sha512sum digest fs) (hfile : fs path = some c) :
    runChild env path = { output := digest c ++ ([32, 32] ++ path ++ [10]), status := 0 } := by
  simp [runChild, hx, ht, sha512sum, hfile]

/-- The digests of the examples are well formed. -/
theorem demoDigest_isDigest (c : List Nat) : IsDigest (demoDigest c) := by
  refine ⟨by simp [demoDigest], ?_⟩
  intro b hb
  simp only [demoDigest, List.mem_replicate] at hb
  have : c.length % 10 < 10 := Nat.mod_lt _ (by decide)
  simp [isLowerHex, hb.2]
  omega

/-- No other byte upper-cases to NUL. -/
theorem toupper_ne_zero (c : Nat) (h : c ≠ 0) : toupper c ≠ 0 := by
  unfold toupper
  split <;> omega

/-- The result of `checkOneFile` on a readable file and a literal without NUL. -/
theorem checkOneFile_digest (env : Env) (digest : List Nat → List Nat)
    (fs : CStr → Option (List Nat)) (path lit : CStr) (c : List Nat) (s : Proc)
    (hf : ∀ n, env.fails n = false) (hx : env.canExec = true)
    (ht : env.tool = sha512sum digest fs) (hfile : fs path = some c)
    (hd : IsDigest (digest c)) (hlit : ∀ b ∈ lit, b ≠ 0) :
    ∃ s', checkOneFile env path lit s = .ret (if lit = digest c then 0 else 1) s' := by
  have e1 := runChild_sha512sum env digest fs path c hx ht hfile
  obtain ⟨k, rest, -, h⟩ := checkOneFile_run env path lit s hf (by simp [e1])
  rw [h, e1]
  simp only [store_calloc _ _ hd.1, cstr]
  have hiff := strcmp_eq_zero_iff (digest c) lit [] [] hd.ne_zero hlit
  by_cases hl : lit = digest c
  · rw [if_pos (hiff.mpr hl.symm), if_pos hl]
    exact ⟨_, rfl⟩
  · rw [if_neg (fun h0 => hl (hiff.mp h0).symm), if_neg hl]
    exact ⟨_, rfl⟩

/-- A child that writes nothing keeps `checkTwoFiles` from returning. -/
theorem checkTwoFiles_no_output (env : Env) (arg1 arg2 : CStr) (s : Proc)
    (h : (runChild env arg1).output = [] ∨ (runChild env arg2).output = []) :
    ∀ v s', checkTwoFiles env arg1 arg2 s ≠ .ret v s' := by
  intro v s' hrun
  have hA := lowestFree_not_mem s.openFds
  have hB := lowestFree_not_mem (lowestFree s.openFds :: s.openFds)
  have hC := lowestFree_not_mem
    (lowestFree (lowestFree s.openFds :: s.openFds) :: lowestFree s.openFds :: s.openFds)
  have hD := lowestFree_not_mem
    (lowestFree (lowestFree (lowestFree s.openFds :: s.openFds) :: lowestFree s.openFds
        :: s.openFds) ::
      lowestFree (lowestFree s.openFds :: s.openFds) :: lowestFree s.openFds :: s.openFds)
  simp only [List.mem_cons, not_or] at hB hC hD
  obtain ⟨hB1, hB2⟩ := hB
  obtain ⟨hC1, hC2, hC3⟩ := hC
  obtain ⟨hD1, hD2, hD3, hD4⟩ := hD
  by_cases f1 : env.fails s.trace.length = true
  · simp [checkTwoFiles, bind, M.bind, orErr, sysPipe, f1, err_sys] at hrun
  by_cases f2 : env.fails (s.trace.length + 1) = true
  · simp [checkTwoFiles, bind, M.bind, orErr, sysPipe, sysFork, f1, f2, err_sys] at hrun
  by_cases f3 : env.fails (s.trace.length + 1 + 1) = true
  · simp [checkTwoFiles, bind, M.bind, orErr, sysPipe, sysFork, sysRead, f1, f2, f3,
      err_sys] at hrun
  by_cases o1 : (runChild env arg1).output = []
  · simp [checkTwoFiles, bind, M.bind, orErr, sysPipe, sysFork, sysRead, f1, f2, f3, o1,
      updatePipe, err_sys] at hrun
  have o2 : (runChild env arg2).output = [] := h.resolve_left o1
  by_cases f4 : env.fails (s.trace.length + 1 + 1 + 1) = true
  · simp [checkTwoFiles, bind, M.bind, orErr, sysPipe, sysFork, sysRead, f1, f2, f3, f4, o1,
      updatePipe, err_sys] at hrun
  by_cases f5 : env.fails (s.trace.length + 1 + 1 + 1 + 1) = true
  · simp [checkTwoFiles, bind, M.bind, orErr, sysPipe, sysFork, sysRead, f1, f2, f3, f4, f5, o1,
      updatePipe, err_sys] at hrun
  by_cases f6 : env.fails (s.trace.length + 1 + 1 + 1 + 1 + 1) = true
  · simp [checkTwoFiles, bind, M.bind, orErr, sysPipe, sysFork, sysRead, f1, f2, f3, f4, f5, f6,
      o1, updatePipe, err_sys, hB1, hC1, hC2, hD1, hD2, hD3, Ne.symm hB1, Ne.symm hC1,
      Ne.symm hC2, Ne.symm hD1, Ne.symm hD2, Ne.symm hD3] at hrun
  simp [checkTwoFiles, bind, M.bind, orErr, sysPipe, sysFork, sysRead, f1, f2, f3, f4, f5, f6,
      o1, o2, updatePipe, err_sys, hB1, hC1, hC2, hD1, hD2, hD3, Ne.symm hB1, Ne.symm hC1,
      Ne.symm hC2, Ne.symm hD1, Ne.symm hD2, Ne.symm hD3] at hrun

/-- An entry of the final trace was there before or satisfies `P`. -/
theorem Adds.mem {P : Event → Prop} {m : M α} (h : Adds P m) (s : Proc) :
    ∀ e ∈ (m s).state.trace, e ∈ s.trace ∨ P e := by
  obtain ⟨l, hl, hP⟩ := h s
  intro e he
  rw [hl] at he
  rcases List.mem_append.mp he with h1 | h1
  · exact Or.inl h1
  · exact Or.inr (hP e h1)

/-- With no failing call, a child that writes nothing leaves the parent blocked in `read`.
-/
theorem checkTwoFiles_hang (env : Env) (arg1 arg2 : CStr) (s : Proc)
    (hf : ∀ n, env.fails n = false)
    (h : (runChild env arg1).output = [] ∨ (runChild env arg2).output = []) :
    ∃ s', checkTwoFiles env arg1 arg2 s = .hang s' := by
  have hA := lowestFree_not_mem s.openFds
  have hB := lowestFree_not_mem (lowestFree s.openFds :: s.openFds)
  have hC := lowestFree_not_mem
    (lowestFree (lowestFree s.openFds :: s.openFds) :: lowestFree s.openFds :: s.openFds)
  have hD := lowestFree_not_mem
    (lowestFree (lowestFree (lowestFree s.openFds :: s.openFds) :: lowestFree s.openFds
        :: s.openFds) ::
      lowestFree (lowestFree s.openFds :: s.openFds) :: lowestFree s.openFds :: s.openFds)
  simp only [List.mem_cons, not_or] at hB hC hD
  obtain ⟨hB1, hB2⟩ := hB
  obtain ⟨hC1, hC2, hC3⟩ := hC
  obtain ⟨hD1, hD2, hD3, hD4⟩ := hD
  by_cases o1 : (runChild env arg1).output = []
  · cases hr : checkTwoFiles env arg1 arg2 s with
    | hang s' => exact ⟨s', rfl⟩
    | ret v s' =>
      simp [checkTwoFiles, bind, M.bind, orErr, sysPipe, sysFork, sysRead, hf, o1,
        updatePipe] at hr
    | fatal e s' =>
      simp [checkTwoFiles, bind, M.bind, orErr, sysPipe, sysFork, sysRead, hf, o1,
        updatePipe] at hr
    | fault s' =>
      simp [checkTwoFiles, bind, M.bind, orErr, sysPipe, sysFork, sysRead, hf, o1,
        updatePipe] at hr
  · have o2 : (runChild env arg2).output = [] := h.resolve_left o1
    cases hr : checkTwoFiles env arg1 arg2 s with
    | hang s' => exact ⟨s', rfl⟩
    | ret v s' =>
      simp [checkTwoFiles, bind, M.bind, orErr, sysPipe, sysFork, sysRead, hf, o1, o2,
        updatePipe, hB1, hC1, hC2, hD1, hD2, hD3, Ne.symm hB1, Ne.symm hC1,
        Ne.symm hC2, Ne.symm hD1, Ne.symm hD2, Ne.symm hD3] at hr
    | fatal e s' =>
      simp [checkTwoFiles, bind, M.bind, orErr, sysPipe, sysFork, sysRead, hf, o1, o2,
        updatePipe, hB1, hC1, hC2, hD1, hD2, hD3, Ne.symm hB1, Ne.symm hC1,
        Ne.symm hC2, Ne.symm hD1, Ne.symm hD2, Ne.symm hD3] at hr
    | fault s' =>
      simp [checkTwoFiles, bind, M.bind, orErr, sysPipe, sysFork, sysRead, hf, o1, o2,
        updatePipe, hB1, hC1, hC2, hD1, hD2, hD3, Ne.symm hB1, Ne.symm hC1,
        Ne.symm hC2, Ne.symm hD1, Ne.symm hD2, Ne.symm hD3] at hr

/-- The first child of `killedEnv`. -/
theorem runChild_killed :
    runChild killedEnv [97]
      = { output := demoDigest [] ++ ([32, 32] ++ [97] ++ [10]), status := 9 } := by
  simp [runChild, killedEnv, demoEnv, sha512sum, demoFs]

/-- The check functions do not print the usage message. -/
theorem inCheck_ne_usage (paths : List CStr) (e : Event) (h : Event.inCheck paths e) :
    e ≠ .usage := by
  intro he
  subst he
  exact h

/-- Past the argument-count check the usage message is never printed. -/
theorem main_no_usage (env : Env) (a0 a1 a2 : CStr) (rest : List CStr) (s : Proc)
    (hargs : isOneFileFlag a1 = true → rest ≠ []) (hs : Event.usage ∉ s.trace) :
    Event.usage ∉ (main env (a0 :: a1 :: a2 :: rest) s).state.trace := by
  by_cases hflag : isOneFileFlag a1 = true
  · obtain ⟨a3, rest2, hrest⟩ : ∃ a3 rest2, rest = a3 :: rest2 := by
      cases rest with
      | nil => exact absurd rfl (hargs hflag)
      | cons a3 rest2 => exact ⟨a3, rest2, rfl⟩
    subst hrest
    by_cases h2 : env.openable a2 = true
    · rw [main_one env a0 a1 a2 a3 rest2 s hflag h2]
      intro hmem
      rcases (Adds.checkOneFile env a2 a3).mem _ _ hmem with h | h
      · simp [hs] at h
      · exact inCheck_ne_usage _ _ h rfl
    · have h2f : env.openable a2 = false := by simpa using h2
      rw [main_one_bad env a0 a1 a2 a3 rest2 s hflag h2f]
      simp [Res.state, hs]
  · have hflag2 : isOneFileFlag a1 = false := by simpa using hflag
    by_cases h1 : env.openable a1 = true
    · by_cases h2 : env.openable a2 = true
      · rw [main_two env a0 a1 a2 rest s hflag2 h1 h2]
        intro hmem
        rcases (Adds.checkTwoFiles env a1 a2).mem _ _ hmem with h | h
        · simp [hs] at h
        · exact inCheck_ne_usage _ _ h rfl
      · have h2f : env.openable a2 = false := by simpa using h2
        rw [main_two_bad2 env a0 a1 a2 rest s hflag2 h1 h2f]
        simp [Res.state, hs]
    · have h1f : env.openable a1 = false := by simpa using h1
      rw [main_two_bad1 env a0 a1 a2 rest s hflag2 h1f]
      simp [Res.state, hs]

/-- The opened paths of a concatenated trace. -/
theorem opened_append (l1 l2 : List Event) : opened (l1 ++ l2) = opened l1 ++ opened l2 := by
  induction l1 with
  | nil => rfl
  | cons e es ih =>
    cases e with
    | openFile p fd =>
      cases fd with
      | none => simpa [opened] using ih
      | some fd => simpa [opened] using ih
    | _ => simpa [opened] using ih

/-- The run of `checkTwoFiles` when its `k`-th `pipe`/`fork`/`read` is the first to fail. -/
theorem checkTwoFiles_fatal (env : Env) (arg1 arg2 : CStr) (s : Proc) (k : Nat) (hk : k < 6)
    (hfail : env.fails (s.trace.length + k) = true)
    (hbefore : ∀ j, j < k → env.fails (s.trace.length + j) = false)
    (hout : 3 ≤ k → (runChild env arg1).output ≠ []) :
    ∃ s', checkTwoFiles env arg1 arg2 s = .fatal (twoFilesSite k) s' ∧
      s'.trace.getLast? = some (.errSys (twoFilesSite k)) ∧
      (∀ a b, Event.strcmp a b ∈ s'.trace → Event.strcmp a b ∈ s.trace) := by
  have hA := lowestFree_not_mem s.openFds
  have hB := lowestFree_not_mem (lowestFree s.openFds :: s.openFds)
  have hC := lowestFree_not_mem
    (lowestFree (lowestFree s.openFds :: s.openFds) :: lowestFree s.openFds :: s.openFds)
  simp only [List.mem_cons, not_or] at hB hC
  obtain ⟨hB1, hB2⟩ := hB
  obtain ⟨hC1, hC2, hC3⟩ := hC
  have key : ∀ e, (∃ s', checkTwoFiles env arg1 arg2 s = .fatal e s' ∧
      s'.trace.getLast? = some (.errSys e) ∧
      (∀ a b, Event.strcmp a b ∈ s'.trace → Event.strcmp a b ∈ s.trace)) ↔
      ∀ r, checkTwoFiles env arg1 arg2 s = r →
        ∃ s', r = .fatal e s' ∧ s'.trace.getLast? = some (.errSys e) ∧
          (∀ a b, Event.strcmp a b ∈ s'.trace → Event.strcmp a b ∈ s.trace) := by
    intro e
    constructor
    · rintro ⟨s', h1, h2⟩ r hr
      exact ⟨s', hr ▸ h1, h2⟩
    · intro h
      obtain ⟨s', h1, h2⟩ := h _ rfl
      exact ⟨s', h1, h2⟩
  rw [key]
  intro r hr
  match k, hk with
  | 0, _ =>
    have f0 : env.fails s.trace.length = true := by simpa using hfail
    simp [checkTwoFiles, bind, M.bind, orErr, sysPipe, f0, err_sys, Proc.log] at hr
    subst hr
    exact ⟨_, rfl, by simp [twoFilesSite], by simp⟩
  | 1, _ =>
    have f0 : env.fails s.trace.length = false := by simpa using hbefore 0 (by omega)
    simp [checkTwoFiles, bind, M.bind, orErr, sysPipe, sysFork, f0, hfail, err_sys,
      Proc.log] at hr
    subst hr
    exact ⟨_, rfl, by simp [twoFilesSite], by simp⟩
  | 2, _ =>
    have f0 : env.fails s.trace.length = false := by simpa using hbefore 0 (by omega)
    have f1 := hbefore 1 (by omega)
    have f2 : env.fails (s.trace.length + 1 + 1) = true := hfail
    simp [checkTwoFiles, bind, M.bind, orErr, sysPipe, sysFork, sysRead, f0, f1, f2, err_sys,
      Proc.log] at hr
    subst hr
    exact ⟨_, rfl, by simp [twoFilesSite], by simp⟩
  | 3, _ =>
    have f0 : env.fails s.trace.length = false := by simpa using hbefore 0 (by omega)
    have f1 := hbefore 1 (by omega)
    have f2 : env.fails (s.trace.length + 1 + 1) = false := hbefore 2 (by omega)
    have f3 : env.fails (s.trace.length + 1 + 1 + 1) = true := hfail
    have o1 := hout (by omega)
    simp [checkTwoFiles, bind, M.bind, orErr, sysPipe, sysFork, sysRead, f0, f1, f2, f3, o1,
      updatePipe, err_sys, Proc.log] at hr
    subst hr
    exact ⟨_, rfl, by simp [twoFilesSite], by simp⟩
  | 4, _ =>
    have f0 : env.fails s.trace.length = false := by simpa using hbefore 0 (by omega)
    have f1 := hbefore 1 (by omega)
    have f2 : env.fails (s.trace.length + 1 + 1) = false := hbefore 2 (by omega)
    have f3 : env.fails (s.trace.length + 1 + 1 + 1) = false := hbefore 3 (by omega)
    have f4 : env.fails (s.trace.length + 1 + 1 + 1 + 1) = true := hfail
    have o1 := hout (by omega)
    simp [checkTwoFiles, bind, M.bind, orErr, sysPipe, sysFork, sysRead, f0, f1, f2, f3, f4, o1,
      updatePipe, err_sys, Proc.log] at hr
    subst hr
    exact ⟨_, rfl, by simp [twoFilesSite], by simp⟩
  | 5, _ =>
    have f0 : env.fails s.trace.length = false := by simpa using hbefore 0 (by omega)
    have f1 := hbefore 1 (by omega)
    have f2 : env.fails (s.trace.length + 1 + 1) = false := hbefore 2 (by omega)
    have f3 : env.fails (s.trace.length + 1 + 1 + 1) = false := hbefore 3 (by omega)
    have f4 : env.fails (s.trace.length + 1 + 1 + 1 + 1) = false := hbefore 4 (by omega)
    have f5 : env.fails (s.trace.length + 1 + 1 + 1 + 1 + 1) = true := hfail
    have o1 := hout (by omega)
    simp [checkTwoFiles, bind, M.bind, orErr, sysPipe, sysFork, sysRead, f0, f1, f2, f3, f4, f5,
      o1, updatePipe, err_sys, Proc.log, hB1, hC1, hC2, Ne.symm hB1, Ne.symm hC1,
      Ne.symm hC2] at hr
    subst hr
    exact ⟨_, rfl, by simp [twoFilesSite], by simp⟩

/-- A `pipe` that does not fail. -/
theorem sysPipe_ok (env : Env) (s : Proc) (h : env.fails s.trace.length = false) :
    sysPipe env s =
      .ret (some (lowestFree s.openFds, lowestFree (lowestFree s.openFds :: s.openFds)))
        { s with openFds := lowestFree (lowestFree s.openFds :: s.openFds)
                              :: lowestFree s.openFds :: s.openFds,
                 pipes := { rd := lowestFree s.openFds,
                            wr := lowestFree (lowestFree s.openFds :: s.openFds),
                            data := [] } :: s.pipes,
                 trace := s.trace ++ [.pipe (lowestFree s.openFds)
                            (lowestFree (lowestFree s.openFds :: s.openFds))] } := by
  simp [sysPipe, h]

/-- A `fork` that does not fail, the child writing to the pipe created last. -/
theorem sysFork_ok (env : Env) (path : CStr) (out : Nat) (s : Proc) (r : Nat)
    (dt : List Nat) (ps : List Pipe) (h : env.fails s.trace.length = false)
    (hp : s.pipes = { rd := r, wr := out, data := dt } :: ps) :
    sysFork env path out s =
      .ret (some (s.lastPid + 1))
        { s with children := (s.lastPid + 1, (runChild env path).status) :: s.children,
                 pipes := { rd := r, wr := out, data := dt ++ (runChild env path).output }
                            :: ps,
                 lastPid := s.lastPid + 1,
                 trace := s.trace ++ [.fork (s.lastPid + 1) path out] } := by
  simp [sysFork, h, hp, updatePipe]

/-- A `read` that does not fail, on the pipe created last, with bytes waiting. -/
theorem sysRead_ok (env : Env) (fd n : Nat) (s : Proc) (w : Nat) (dt : List Nat)
    (ps : List Pipe) (h : env.fails s.trace.length = false) (hfd : fd ∈ s.openFds)
    (hp : s.pipes = { rd := fd, wr := w, data := dt } :: ps) (hd : dt ≠ []) :
    sysRead env fd n s =
      .ret (some (dt.take n))
        { s with pipes := { rd := fd, wr := w, data := dt.drop n } :: ps,
                 trace := s.trace ++ [.read fd (dt.take n)] } := by
  simp [sysRead, h, hfd, hp, updatePipe, hd]

/-- A `waitpid` with a child to reap. -/
theorem sysWaitpid_ok (env : Env) (s : Proc) (c : Nat × Nat) (rest : List (Nat × Nat))
    (h : reap env s.children = some (c, rest)) :
    sysWaitpid env s =
      .ret (some c) { s with children := rest, trace := s.trace ++ [.wait c.1 c.2] } := by
  simp [sysWaitpid, h]

/-- A `close` of an open descriptor. -/
theorem sysClose_ok (fd : Nat) (s : Proc) (h : fd ∈ s.openFds) :
    sysClose fd s =
      .ret (some ()) { s with openFds := s.openFds.erase fd,
                              trace := s.trace ++ [.close fd true] } := by
  simp [sysClose, h]

/-! ## The claims -/

/-- C1: for two readable files with the same contents (the same path twice included),
`checkTwoFiles` returns 0, each child writing the digest of its file, two blanks, the file
name and a newline, and each `read` delivering the first 128 bytes. -/
theorem checkTwoFiles_identical_match (env : Env) (digest : List Nat → List Nat)
    (fs : CStr → Option (List Nat)) (arg1 arg2 : CStr) (c : List Nat) (s : Proc)
    (hf : ∀ n, env.fails n = false) (hx : env.canExec = true)
    (ht : env.tool = sha512sum digest fs) (hd : IsDigest (digest c))
    (hfile1 : fs arg1 = some c) (hfile2 : fs arg2 = some c) :
    ∃ s', checkTwoFiles env arg1 arg2 s = .ret 0 s' := by
  have e1 := runChild_sha512sum env digest fs arg1 c hx ht hfile1
  have e2 := runChild_sha512sum env digest fs arg2 c hx ht hfile2
  obtain ⟨r1, w1, r2, w2, c1, c2, rest, -, -, -, h⟩ := checkTwoFiles_run env arg1 arg2 s hf
    (by simp [e1]) (by simp [e2])
  rw [h, e1, e2]
  simp only [store_calloc _ _ hd.1]
  rw [if_pos ((strcmp_eq_zero_iff _ _ [] [] hd.ne_zero hd.ne_zero).mpr rfl)]
  exact ⟨_, rfl⟩

/-- Witness for C1: two different paths with the same (empty) contents. -/
theorem checkTwoFiles_identical_match_witness :
    ∃ s', checkTwoFiles demoEnv [97] [99] (Proc.start [0, 1, 2]) = .ret 0 s' :=
  checkTwoFiles_identical_match demoEnv demoDigest demoFs [97] [99] [] (Proc.start [0, 1, 2])
    (fun _ => rfl) rfl rfl (demoDigest_isDigest _) (by decide) (by decide)

/-- C2: for two readable files whose contents differ, and whose digests therefore differ,
`checkTwoFiles` returns 1, whatever the two file names are. -/
theorem checkTwoFiles_different_mismatch (env : Env) (digest : List Nat → List Nat)
    (fs : CStr → Option (List Nat)) (arg1 arg2 : CStr) (c1 c2 : List Nat) (s : Proc)
    (hf : ∀ n, env.fails n = false) (hx : env.canExec = true)
    (ht : env.tool = sha512sum digest fs) (hd1 : IsDigest (digest c1))
    (hd2 : IsDigest (digest c2)) (hfile1 : fs arg1 = some c1) (hfile2 : fs arg2 = some c2)
    (hne : c1 ≠ c2) (hinj : digest c1 = digest c2 → c1 = c2) :
    ∃ s', checkTwoFiles env arg1 arg2 s = .ret 1 s' := by
  have e1 := runChild_sha512sum env digest fs arg1 c1 hx ht hfile1
  have e2 := runChild_sha512sum env digest fs arg2 c2 hx ht hfile2
  obtain ⟨r1, w1, r2, w2, k1, k2, rest, -, -, -, h⟩ := checkTwoFiles_run env arg1 arg2 s hf
    (by simp [e1]) (by simp [e2])
  rw [h, e1, e2]
  simp only [store_calloc _ _ hd1.1, store_calloc _ _ hd2.1]
  rw [if_neg (fun h0 => hne (hinj
    ((strcmp_eq_zero_iff _ _ [] [] hd1.ne_zero hd2.ne_zero).mp h0)))]
  exact ⟨_, rfl⟩

/-- Witness for C2: an empty file and a one-byte file. -/
theorem checkTwoFiles_different_mismatch_witness :
    ∃ s', checkTwoFiles demoEnv [97] [98] (Proc.start [0, 1, 2]) = .ret 1 s' :=
  checkTwoFiles_different_mismatch demoEnv demoDigest demoFs [97] [98] [] [1]
    (Proc.start [0, 1, 2]) (fun _ => rfl) rfl rfl (demoDigest_isDigest _)
    (demoDigest_isDigest _) (by decide) (by decide) (by decide) (by decide)

/-- C3: for a readable file and any checksum literal, `checkOneFile` returns 0 when the
literal is identical to the 128-character digest of the file and 1 otherwise; the digest
followed by more characters, a truncated digest, a digest with one character replaced and
an upper-case rendering that differs from the digest all give 1. -/
theorem checkOneFile_match_iff (env : Env) (digest : List Nat → List Nat)
    (fs : CStr → Option (List Nat)) (path : CStr) (c : List Nat) (s : Proc)
    (hf : ∀ n, env.fails n = false) (hx : env.canExec = true)
    (ht : env.tool = sha512sum digest fs) (hfile : fs path = some c)
    (hd : IsDigest (digest c)) :
    (∀ lit : CStr, (∀ b ∈ lit, b ≠ 0) →
      ∃ s', checkOneFile env path lit s = .ret (if lit = digest c then 0 else 1) s') ∧
    (∀ extra : CStr, extra ≠ [] → (∀ b ∈ extra, b ≠ 0) →
      ∃ s', checkOneFile env path (digest c ++ extra) s = .ret 1 s') ∧
    (∀ k, k < 128 → ∃ s', checkOneFile env path ((digest c).take k) s = .ret 1 s') ∧
    (∀ i b, i < 128 → b ≠ 0 → (digest c).get? i ≠ some b →
      ∃ s', checkOneFile env path ((digest c).set i b) s = .ret 1 s') ∧
    ((digest c).map toupper ≠ digest c →
      ∃ s', checkOneFile env path ((digest c).map toupper) s = .ret 1 s') := by
  have key := fun lit hlit =>
    checkOneFile_digest env digest fs path lit c s hf hx ht hfile hd hlit
  refine ⟨key, ?_, ?_, ?_, ?_⟩
  · intro extra hne hz
    have hlit : ∀ b ∈ digest c ++ extra, b ≠ 0 := by
      intro b hb
      rcases List.mem_append.mp hb with h | h
      · exact hd.ne_zero b h
      · exact hz b h
    have hdiff : digest c ++ extra ≠ digest c := by
      intro h
      have := congrArg List.length h
      simp at this
      exact hne this
    simpa [hdiff] using key _ hlit
  · intro k hk
    have hlit : ∀ b ∈ (digest c).take k, b ≠ 0 :=
      fun b hb => hd.ne_zero b (List.mem_of_mem_take hb)
    have hdiff : (digest c).take k ≠ digest c := by
      intro h
      have := congrArg List.length h
      simp [hd.1] at this
      omega
    simpa [hdiff] using key _ hlit
  · intro i b hi hb hget
    have hlit : ∀ x ∈ (digest c).set i b, x ≠ 0 := by
      intro x hx
      rcases List.mem_or_eq_of_mem_set hx with h | h
      · exact hd.ne_zero x h
      · exact h ▸ hb
    have hdiff : (digest c).set i b ≠ digest c := by
      intro h
      apply hget
      have hlen : i < (digest c).length := by rw [hd.1]; exact hi
      have h2 : ((digest c).set i b).get? i = some b := by
        simp [List.getElem?_set, hlen]
      rw [h] at h2
      exact h2
    simpa [hdiff] using key _ hlit
  · intro hdiff
    have hlit : ∀ x ∈ (digest c).map toupper, x ≠ 0 := by
      intro x hx
      obtain ⟨y, hy, rfl⟩ := List.mem_map.mp hx
      exact toupper_ne_zero y (hd.ne_zero y hy)
    simpa [hdiff] using key _ hlit

/-- Witness for C3: the empty file `a` against its own digest. -/
theorem checkOneFile_match_iff_witness :
    ∃ s', checkOneFile demoEnv [97] (demoDigest []) (Proc.start [0, 1, 2]) = .ret 0 s' := by
  have h := (checkOneFile_match_iff demoEnv demoDigest demoFs [97] [] (Proc.start [0, 1, 2])
    (fun _ => rfl) rfl rfl (by decide) (demoDigest_isDigest _)).1 (demoDigest [])
    (demoDigest_isDigest _).ne_zero
  simpa using h

/-- C8: on a run of `checkTwoFiles` in which `pipe`, `fork` and `read` succeed, from a
state with no unreaped child, the parent performs, each on the state left by the one
before: `pipe`, `fork`, `read` of the first child's output, `pipe`, `fork`, `read` of the
second child's output, two `waitpid` that reap the two children launched (in either
order), and one `close` of each of the four distinct descriptors the two `pipe` calls
opened; only then the two buffers read are compared.  After the second `read` the four
descriptors are open and the two children unreaped; at return the open descriptors and
the unreaped children are those at entry. -/
theorem checkTwoFiles_resources (env : Env) (arg1 arg2 : CStr) (s : Proc)
    (hf : ∀ n, env.fails n = false) (h1 : (runChild env arg1).output ≠ [])
    (h2 : (runChild env arg2).output ≠ []) (hc : s.children = []) :
    ∃ (r1 w1 r2 w2 p1 p2 : Nat) (x y : Nat × Nat)
        (s1 s2 s3 s4 s5 s6 s7 s8 s9 s10 s11 s12 : Proc),
      sysPipe env s = .ret (some (r1, w1)) s1 ∧
      sysFork env arg1 w1 s1 = .ret (some p1) s2 ∧
      sysRead env r1 128 s2 = .ret (some ((runChild env arg1).output.take 128)) s3 ∧
      sysPipe env s3 = .ret (some (r2, w2)) s4 ∧
      sysFork env arg2 w2 s4 = .ret (some p2) s5 ∧
      sysRead env r2 128 s5 = .ret (some ((runChild env arg2).output.take 128)) s6 ∧
      sysWaitpid env s6 = .ret (some x) s7 ∧
      sysWaitpid env s7 = .ret (some y) s8 ∧
      sysClose r1 s8 = .ret (some ()) s9 ∧
      sysClose w1 s9 = .ret (some ()) s10 ∧
      sysClose r2 s10 = .ret (some ()) s11 ∧
      sysClose w2 s11 = .ret (some ()) s12 ∧
      checkTwoFiles env arg1 arg2 s =
        .ret (if strcmp (store (calloc MAX_SIZE) ((runChild env arg1).output.take 128))
                  (store (calloc MAX_SIZE) ((runChild env arg2).output.take 128)) = 0
              then 0 else 1)
          (s12.log (.strcmp (store (calloc MAX_SIZE) ((runChild env arg1).output.take 128))
            (store (calloc MAX_SIZE) ((runChild env arg2).output.take 128)))) ∧
      [r1, w1, r2, w2].Nodup ∧ (∀ fd ∈ [r1, w1, r2, w2], fd ∉ s.openFds) ∧
      s6.openFds = w2 :: r2 :: w1 :: r1 :: s.openFds ∧
      p1 ≠ p2 ∧
      s6.children = [(p2, (runChild env arg2).status), (p1, (runChild env arg1).status)] ∧
      ((x = (p1, (runChild env arg1).status) ∧ y = (p2, (runChild env arg2).status)) ∨
        (x = (p2, (runChild env arg2).status) ∧ y = (p1, (runChild env arg1).status))) ∧
      s12.trace = s.trace ++
        [.pipe r1 w1, .fork p1 arg1 w1, .read r1 ((runChild env arg1).output.take 128),
         .pipe r2 w2, .fork p2 arg2 w2, .read r2 ((runChild env arg2).output.take 128),
         .wait x.1 x.2, .wait y.1 y.2,
         .close r1 true, .close w1 true, .close r2 true, .close w2 true] ∧
      s12.openFds = s.openFds ∧ s12.children = s.children := by
  obtain ⟨fds, ch, pipes, lp, tr⟩ := s
  simp only at hc
  subst hc
  obtain ⟨x, rest1, hx, hp1⟩ := reap_cons env (lp + 1 + 1, (runChild env arg2).status)
    [(lp + 1, (runChild env arg1).status)]
  obtain ⟨d, rest2, hrest1⟩ : ∃ d rest2, rest1 = d :: rest2 := by
    cases rest1 with
    | nil => have := hp1.length_eq; simp at this
    | cons d rest2 => exact ⟨d, rest2, rfl⟩
  subst hrest1
  obtain ⟨y, rest, hy, hp2⟩ := reap_cons env d rest2
  have hperm := hp1.trans (List.Perm.cons x hp2)
  have hrest : rest = [] := by
    have hlen := hperm.length_eq
    cases rest with
    | nil => rfl
    | cons a l => simp at hlen
  subst hrest
  have hxm : x ∈ [(lp + 1 + 1, (runChild env arg2).status),
      (lp + 1, (runChild env arg1).status)] := hperm.symm.subset (by simp)
  have hym : y ∈ [(lp + 1 + 1, (runChild env arg2).status),
      (lp + 1, (runChild env arg1).status)] := hperm.symm.subset (by simp)
  have hxy : x.1 ≠ y.1 := by
    have hnd2 : ([(lp + 1 + 1, (runChild env arg2).status),
        (lp + 1, (runChild env arg1).status)].map Prod.fst).Nodup := by simp
    have := (hperm.map Prod.fst).nodup_iff.mp hnd2
    simpa using this
  have hA := lowestFree_not_mem fds
  have hB := lowestFree_not_mem (lowestFree fds :: fds)
  have hC := lowestFree_not_mem (lowestFree (lowestFree fds :: fds) :: lowestFree fds :: fds)
  have hD := lowestFree_not_mem
    (lowestFree (lowestFree (lowestFree fds :: fds) :: lowestFree fds :: fds) ::
      lowestFree (lowestFree fds :: fds) :: lowestFree fds :: fds)
  simp only [List.mem_cons, not_or] at hB hC hD
  obtain ⟨hB1, hB2⟩ := hB
  obtain ⟨hC1, hC2, hC3⟩ := hC
  obtain ⟨hD1, hD2, hD3, hD4⟩ := hD
  have hne : ∀ a b : Nat, a ≠ b → b ≠ a := fun _ _ h => Ne.symm h
  refine' ⟨_, _, _, _, _, _, x, y, _, _, _, _, _, _, _, _, _, _, _, _, _, _, _, _, _, _, _, _,
    _, _, _, _, _, _, _, _, _, _, _, _, _, _⟩
  rotate_left 18
  · exact sysPipe_ok env _ (hf _)
  · refine sysFork_ok env arg1 _ _ ?_ ?_ ?_ (hf _) ?_
    rotate_left 3
    exact rfl
  · refine sysRead_ok env _ 128 _ ?_ _ ?_ (hf _) ?_ ?_ h1
    rotate_left 3
    · exact rfl
    · simp
  · exact sysPipe_ok env _ (hf _)
  · refine sysFork_ok env arg2 _ _ ?_ ?_ ?_ (hf _) ?_
    rotate_left 3
    exact rfl
  · refine sysRead_ok env _ 128 _ ?_ _ ?_ (hf _) ?_ ?_ h2
    rotate_left 3
    · exact rfl
    · simp
  · refine sysWaitpid_ok env _ x (d :: rest2) ?_
    exact hx
  · refine sysWaitpid_ok env _ y [] ?_
    exact hy
  · refine sysClose_ok _ _ ?_
    simp
  · refine sysClose_ok _ _ ?_
    simp [hB1, hC1, hC2, hD1, hD2, hD3, hne _ _ hB1, hne _ _ hC1,
      hne _ _ hC2, hne _ _ hD1, hne _ _ hD2, hne _ _ hD3]
  · refine sysClose_ok _ _ ?_
    simp [hB1, hC1, hC2, hD1, hD2, hD3, hne _ _ hB1, hne _ _ hC1,
      hne _ _ hC2, hne _ _ hD1, hne _ _ hD2, hne _ _ hD3]
  · refine sysClose_ok _ _ ?_
    simp [hB1, hC1, hC2, hD1, hD2, hD3, hne _ _ hB1, hne _ _ hC1,
      hne _ _ hC2, hne _ _ hD1, hne _ _ hD2, hne _ _ hD3]
  · simp [checkTwoFiles, bind, M.bind, orErr, sysPipe, sysFork, sysWaitpid, sysRead, sysClose,
      emit, Proc.log, updatePipe, hf, hx, hy, h1, h2, pure,
      hB1, hC1, hC2, hD1, hD2, hD3, hne _ _ hB1, hne _ _ hC1, hne _ _ hC2, hne _ _ hD1,
      hne _ _ hD2, hne _ _ hD3]
    split <;> rfl
  · simp [hB1, hC1, hC2, hD1, hD2, hD3, hne _ _ hB1, hne _ _ hC1, hne _ _ hC2, hne _ _ hD1,
      hne _ _ hD2, hne _ _ hD3]
  · simp [hA, hB2, hC3, hD4]
  · rfl
  · simp
  · rfl
  · simp only [List.mem_cons, List.mem_singleton, List.not_mem_nil, or_false] at hxm hym
    rcases hxm with hx1 | hx1 <;> rcases hym with hy1 | hy1
    · exact absurd (by rw [hx1, hy1]) hxy
    · right; exact ⟨hx1, hy1⟩
    · left; exact ⟨hx1, hy1⟩
    · exact absurd (by rw [hx1, hy1]) hxy
  · simp
  · simp [hB1, hC1, hC2, hD1, hD2, hD3, hne _ _ hB1, hne _ _ hC1, hne _ _ hC2, hne _ _ hD1,
      hne _ _ hD2, hne _ _ hD3]
  · rfl

/-- Witness for C8: the files `a` and `b` from the start of the process. -/
theorem checkTwoFiles_resources_witness :
    ∃ (v : Int) (s' : Proc),
      checkTwoFiles demoEnv [97] [98] (Proc.start [0, 1, 2]) = .ret v s' ∧
      s'.openFds = [0, 1, 2] ∧ s'.children = [] := by
  obtain ⟨r1, w1, r2, w2, p1, p2, x, y, s1, s2, s3, s4, s5, s6, s7, s8, s9, s10, s11, s12,
    -, -, -, -, -, -, -, -, -, -, -, -, hrun, -, -, -, -, -, -, -, hfds, hch⟩ :=
    checkTwoFiles_resources demoEnv [97] [98] (Proc.start [0, 1, 2]) (fun _ => rfl)
      (by decide) (by decide) rfl
  exact ⟨_, _, hrun, hfds, hch⟩

/-- C9: a successful run of `checkOneFile` waits on the child before it reads the pipe
and closes neither pipe descriptor: both are still open when it returns. -/
theorem checkOneFile_leaves_pipe_open :
    ∃ (v : Int) (s' : Proc) (got sum : List Nat),
      checkOneFile demoEnv [97] (demoDigest []) (Proc.start [0, 1, 2]) = .ret v s' ∧
      v = 0 ∧ s'.openFds = [4, 3, 0, 1, 2] ∧ s'.children = [] ∧
      s'.trace =
        [.pipe 3 4, .fork 1 [97] 4, .wait 1 0, .read 3 got,
         .strcmp sum (cstr (demoDigest []))] := by
  obtain ⟨k, rest, hp, h⟩ := checkOneFile_run demoEnv [97] (demoDigest [])
    (Proc.start [0, 1, 2]) (fun _ => rfl) (by decide)
  have e1 : runChild demoEnv [97]
      = { output := demoDigest [] ++ ([32, 32] ++ [97] ++ [10]), status := 0 } :=
    runChild_sha512sum demoEnv demoDigest demoFs [97] [] rfl rfl (by decide)
  have hd := demoDigest_isDigest []
  have hlen := hp.length_eq
  have hrest : rest = [] := by
    cases rest with
    | nil => rfl
    | cons a l => simp [Proc.start] at hlen
  subst hrest
  have hk : k = (1, 0) := by
    have := hp.symm.subset (List.mem_singleton.mpr rfl)
    simpa [Proc.start, e1] using this
  subst hk
  have hA : lowestFree [0, 1, 2] = 3 := by decide
  have hB : lowestFree [3, 0, 1, 2] = 4 := by decide
  rw [h, e1]
  simp only [store_calloc _ _ hd.1, cstr]
  rw [if_pos ((strcmp_eq_zero_iff _ _ [] [] hd.ne_zero hd.ne_zero).mpr rfl)]
  refine ⟨0, _, List.take 128 (demoDigest [] ++ ([32, 32] ++ [97] ++ [10])),
    demoDigest [] ++ [0], rfl, rfl, ?_, rfl, ?_⟩
  · simp [Proc.start, hA, hB]
  · simp [Proc.start, hA, hB]

/-- C4, as stated, fails: the first child ends with wait status 9 (killed by a signal)
after it has written its line, and `checkTwoFiles` still returns 0. -/
theorem checkTwoFiles_ignores_wait_status :
    (runChild killedEnv [97]).status ≠ 0 ∧
      ∃ s', checkTwoFiles killedEnv [97] [99] (Proc.start [0, 1, 2]) = .ret 0 s' := by
  have e1 := runChild_killed
  have e2 : runChild killedEnv [99]
      = { output := demoDigest [] ++ ([32, 32] ++ [99] ++ [10]), status := 0 } := by
    simp [runChild, killedEnv, demoEnv, sha512sum, demoFs]
  have hd := demoDigest_isDigest []
  refine ⟨by rw [e1]; decide, ?_⟩
  obtain ⟨r1, w1, r2, w2, c1, c2, rest, -, -, -, h⟩ :=
    checkTwoFiles_run killedEnv [97] [99] (Proc.start [0, 1, 2]) (fun _ => rfl)
      (by simp [e1]) (by simp [e2])
  rw [h, e1, e2]
  simp only [store_calloc _ _ hd.1]
  rw [if_pos ((strcmp_eq_zero_iff _ _ [] [] hd.ne_zero hd.ne_zero).mpr rfl)]
  exact ⟨_, rfl⟩

/-- C4, amended: when one of the parent's own `pipe`, `fork` or `read` calls fails,
`checkTwoFiles` returns no comparison outcome: it ends in the `err_sys` of that call and
no comparison has been made.  The status stored by `waitpid` is not examined: when both
children have written at least the 128 bytes of a digest and the parent's calls succeed,
the comparison of the bytes read is returned, whatever the wait statuses. -/
theorem checkTwoFiles_call_failure (env : Env) (arg1 arg2 : CStr) (s : Proc) :
    (∀ k, k < 6 → env.fails (s.trace.length + k) = true →
      (∀ j, j < k → env.fails (s.trace.length + j) = false) →
      (3 ≤ k → (runChild env arg1).output ≠ []) →
      ∃ s', checkTwoFiles env arg1 arg2 s = .fatal (twoFilesSite k) s' ∧
        s'.trace.getLast? = some (.errSys (twoFilesSite k)) ∧
        (∀ a b, Event.strcmp a b ∈ s'.trace → Event.strcmp a b ∈ s.trace)) ∧
    ((∀ n, env.fails n = false) → 128 ≤ (runChild env arg1).output.length →
      128 ≤ (runChild env arg2).output.length →
      ∃ s', checkTwoFiles env arg1 arg2 s =
        .ret (if strcmp (store (calloc MAX_SIZE) ((runChild env arg1).output.take 128))
                  (store (calloc MAX_SIZE) ((runChild env arg2).output.take 128)) = 0
              then 0 else 1) s') := by
  refine ⟨fun k hk hfail hbefore hout =>
    checkTwoFiles_fatal env arg1 arg2 s k hk hfail hbefore hout, ?_⟩
  intro hf h1 h2
  have n1 : (runChild env arg1).output ≠ [] := by
    intro h; rw [h] at h1; simp at h1
  have n2 : (runChild env arg2).output ≠ [] := by
    intro h; rw [h] at h2; simp at h2
  obtain ⟨r1, w1, r2, w2, c1, c2, rest, -, -, -, h⟩ := checkTwoFiles_run env arg1 arg2 s hf n1 n2
  exact ⟨_, h⟩

/-- Witness for C4: the first `fork` fails. -/
theorem checkTwoFiles_call_failure_witness :
    ∃ s', checkTwoFiles forkFailEnv [97] [98] (Proc.start [0, 1, 2])
        = .fatal (twoFilesSite 1) s' ∧
      s'.trace.getLast? = some (.errSys (twoFilesSite 1)) ∧
      (∀ a b, Event.strcmp a b ∈ s'.trace →
        Event.strcmp a b ∈ (Proc.start [0, 1, 2]).trace) :=
  (checkTwoFiles_call_failure forkFailEnv [97] [98] (Proc.start [0, 1, 2])).1 1 (by decide)
    rfl (fun j hj => by interval_cases j; rfl) (by decide)

/-- C5: past the argument-count check, when a required file does not open (`argv[1]` or
`argv[2]` in two-file mode, `argv[2]` in one-file mode), `main` ends in `err_sys` having
only read arguments and tried to open files: no pipe, no child, no comparison; the exit
status is that of `err_sys`, neither 0 nor 1. -/
theorem main_unopenable_fatal (env : Env) (a0 a1 a2 : CStr) (rest : List CStr)
    (fds : List Nat) (hargs : isOneFileFlag a1 = true → rest ≠ [])
    (hbad : if isOneFileFlag a1 = true then env.openable a2 = false
            else (env.openable a1 = false ∨ env.openable a2 = false)) :
    ∃ e s', main env (a0 :: a1 :: a2 :: rest) (Proc.start fds) = .fatal e s' ∧
      s'.trace.getLast? = some (.errSys e) ∧
      (∀ ev ∈ s'.trace,
        (∃ i, ev = .argv i) ∨ (∃ p fd, ev = .openFile p fd) ∨ ev = .errSys e) ∧
      s'.children = [] ∧ s'.pipes = [] ∧
      ∃ st, exitStatus env (main env (a0 :: a1 :: a2 :: rest) (Proc.start fds)) = some st ∧
        st ≠ 0 ∧ st ≠ 1 := by
  by_cases hflag : isOneFileFlag a1 = true
  · rw [if_pos hflag] at hbad
    obtain ⟨a3, rest2, hrest⟩ : ∃ a3 rest2, rest = a3 :: rest2 := by
      cases rest with
      | nil => exact absurd rfl (hargs hflag)
      | cons a3 rest2 => exact ⟨a3, rest2, rfl⟩
    subst hrest
    have h := main_one_bad env a0 a1 a2 a3 rest2 (Proc.start fds) hflag hbad
    refine ⟨_, _, h, ?_, ?_, rfl, rfl, env.errSys.status, ?_, env.errSys.nonzero,
      env.errSys.notMismatch⟩
    · simp [Proc.start]
    · simp [Proc.start]
    · rw [h]; rfl
  · have hflag2 : isOneFileFlag a1 = false := by simpa using hflag
    rw [if_neg hflag] at hbad
    by_cases h1 : env.openable a1 = true
    · have h2 : env.openable a2 = false := by
        rcases hbad with hb | hb
        · rw [hb] at h1; exact absurd h1 (by decide)
        · exact hb
      have h := main_two_bad2 env a0 a1 a2 rest (Proc.start fds) hflag2 h1 h2
      refine ⟨_, _, h, ?_, ?_, rfl, rfl, env.errSys.status, ?_, env.errSys.nonzero,
        env.errSys.notMismatch⟩
      · simp [Proc.start]
      · simp [Proc.start]
      · rw [h]; rfl
    · have h1f : env.openable a1 = false := by simpa using h1
      have h := main_two_bad1 env a0 a1 a2 rest (Proc.start fds) hflag2 h1f
      refine ⟨_, _, h, ?_, ?_, rfl, rfl, env.errSys.status, ?_, env.errSys.nonzero,
        env.errSys.notMismatch⟩
      · simp [Proc.start]
      · simp [Proc.start]
      · rw [h]; rfl

/-- Witness for C5: two-file mode on `a` and a missing file `d`. -/
theorem main_unopenable_fatal_witness :
    ∃ e s', main demoEnv [[105], [97], [100]] (Proc.start [0, 1, 2]) = .fatal e s' ∧
      s'.trace.getLast? = some (.errSys e) ∧
      (∀ ev ∈ s'.trace,
        (∃ i, ev = .argv i) ∨ (∃ p fd, ev = .openFile p fd) ∨ ev = .errSys e) ∧
      s'.children = [] ∧ s'.pipes = [] ∧
      ∃ st, exitStatus demoEnv (main demoEnv [[105], [97], [100]] (Proc.start [0, 1, 2]))
          = some st ∧ st ≠ 0 ∧ st ≠ 1 :=
  main_unopenable_fatal demoEnv [105] [97] [100] [] [0, 1, 2] (by decide) (by decide)

/-- C6: when `argc < 3`, or `argv[1]` is the one-file flag in any case and `argc < 4`,
`main` prints the usage message and returns -1 (exit status 255), having opened no file
and launched no child, and having read no `argv[i]` with `i >= argc` (none at all when
`argc < 3`); for every other argument vector the usage message is not printed. -/
theorem main_usage (env : Env) (argv : List CStr) (fds : List Nat)
    (hz : ∀ a ∈ argv, ∀ b ∈ a, b ≠ 0) :
    (tooFewArgs argv = true →
      main env argv (Proc.start fds) =
        .ret (-1) { Proc.start fds with
          trace := if argv.length < 3 then [.usage] else [.argv 1, .usage] } ∧
      exitStatus env (main env argv (Proc.start fds)) = some 255 ∧
      (∀ i, Event.argv i ∈ (main env argv (Proc.start fds)).state.trace → i < argv.length)) ∧
    (tooFewArgs argv = false →
      Event.usage ∉ (main env argv (Proc.start fds)).state.trace) := by
  by_cases hlen : argv.length < 3
  · have hrun := main_short env argv (Proc.start fds) hlen
    refine ⟨fun _ => ⟨?_, ?_, ?_⟩, ?_⟩
    · rw [hrun, if_pos hlen]; rfl
    · rw [hrun]; rfl
    · rw [hrun]; simp [Res.state, Proc.log, Proc.start]
    · intro h; simp [tooFewArgs, hlen] at h
  · obtain ⟨a0, a1, a2, rest, rfl⟩ : ∃ a0 a1 a2 rest, argv = a0 :: a1 :: a2 :: rest := by
      match argv, hlen with
      | a0 :: a1 :: a2 :: rest, _ => exact ⟨a0, a1, a2, rest, rfl⟩
      | [], h => simp at h
      | [_], h => simp at h
      | [_, _], h => simp at h
    have hz1 : ∀ b ∈ a1, b ≠ 0 := hz a1 (by simp)
    have hiff := isOneFileFlag_iff a1 hz1
    have htoo : tooFewArgs (a0 :: a1 :: a2 :: rest) = true
        ↔ (isOneFileFlag a1 = true ∧ rest = []) := by
      simp only [tooFewArgs, hlen, decide_False, Bool.false_or, List.getD_cons_succ,
        List.getD_cons_zero, Bool.and_eq_true, beq_iff_eq, decide_eq_true_eq, hiff]
      constructor
      · rintro ⟨h1, h2⟩
        refine ⟨h1, ?_⟩
        cases rest with
        | nil => rfl
        | cons x xs => simp at h2; omega
      · rintro ⟨h1, h2⟩
        subst h2
        exact ⟨h1, by simp⟩
    refine ⟨?_, ?_⟩
    · intro h
      obtain ⟨hflag, hrest⟩ := htoo.mp h
      subst hrest
      have hrun := main_flag_short env a0 a1 a2 (Proc.start fds) hflag
      refine ⟨?_, ?_, ?_⟩
      · rw [hrun, if_neg hlen]; rfl
      · rw [hrun]; rfl
      · rw [hrun]; simp [Res.state, Proc.log, Proc.start]
    · intro h
      apply main_no_usage
      · intro hflag hrest
        have : tooFewArgs (a0 :: a1 :: a2 :: rest) = true := htoo.mpr ⟨hflag, hrest⟩
        rw [h] at this
        exact absurd this (by decide)
      · simp [Proc.start]

/-- Witness for C6: the flag in upper case followed by a single argument. -/
theorem main_usage_witness :
    main demoEnv [[105], bytes "--ONE-FILE", [97]] (Proc.start [0, 1, 2]) =
        .ret (-1) { Proc.start [0, 1, 2] with
          trace := if [[105], bytes "--ONE-FILE", [97]].length < 3 then [.usage]
                   else [.argv 1, .usage] } ∧
      exitStatus demoEnv (main demoEnv [[105], bytes "--ONE-FILE", [97]] (Proc.start [0, 1, 2]))
        = some 255 ∧
      (∀ i, Event.argv i ∈
          (main demoEnv [[105], bytes "--ONE-FILE", [97]] (Proc.start [0, 1, 2])).state.trace →
        i < [[105], bytes "--ONE-FILE", [97]].length) :=
  (main_usage demoEnv [[105], bytes "--ONE-FILE", [97]] [0, 1, 2] (by decide)).1 (by decide)

/-- C7: past the argument-count check and with the input files opening, `main` is
`checkOneFile(argv[2], argv[3])` exactly when `argv[1]` is the one-file flag up to ASCII
case, and `checkTwoFiles(argv[1], argv[2])` otherwise; the call starts with the
descriptors `main` started with, the files `main` opened are the path arguments of the
call, and every child launched afterwards runs on one of them. -/
theorem main_dispatch (env : Env) (a0 a1 a2 : CStr) (rest : List CStr) (fds : List Nat)
    (hz : ∀ b ∈ a1, b ≠ 0)
    (hargs : a1.map tolower = oneFileFlag → rest ≠ [])
    (hopen1 : a1.map tolower ≠ oneFileFlag → env.openable a1 = true)
    (hopen2 : env.openable a2 = true) :
    (a1.map tolower = oneFileFlag →
      ∃ a3 rest2 s1, rest = a3 :: rest2 ∧
        main env (a0 :: a1 :: a2 :: rest) (Proc.start fds) = checkOneFile env a2 a3 s1 ∧
        s1.openFds = fds ∧ s1.children = [] ∧ opened s1.trace = [a2] ∧
        ∀ pid p out, Event.fork pid p out ∈
          (main env (a0 :: a1 :: a2 :: rest) (Proc.start fds)).state.trace → p = a2) ∧
    (a1.map tolower ≠ oneFileFlag →
      ∃ s1, main env (a0 :: a1 :: a2 :: rest) (Proc.start fds) = checkTwoFiles env a1 a2 s1 ∧
        s1.openFds = fds ∧ s1.children = [] ∧ opened s1.trace = [a1, a2] ∧
        ∀ pid p out, Event.fork pid p out ∈
          (main env (a0 :: a1 :: a2 :: rest) (Proc.start fds)).state.trace →
            p = a1 ∨ p = a2) := by
  have hiff := isOneFileFlag_iff a1 hz
  refine ⟨?_, ?_⟩
  · intro hflag
    have hflag1 : isOneFileFlag a1 = true := hiff.mpr hflag
    obtain ⟨a3, rest2, hrest⟩ : ∃ a3 rest2, rest = a3 :: rest2 := by
      cases rest with
      | nil => exact absurd rfl (hargs hflag)
      | cons a3 rest2 => exact ⟨a3, rest2, rfl⟩
    subst hrest
    have hrun := main_one env a0 a1 a2 a3 rest2 (Proc.start fds) hflag1 hopen2
    refine ⟨a3, rest2, _, rfl, hrun, rfl, rfl, ?_, ?_⟩
    · simp [Proc.start, opened]
    · intro pid p out hmem
      rw [hrun] at hmem
      rcases (Adds.checkOneFile env a2 a3).mem _ _ hmem with h | h
      · simp [Proc.start] at h
      · simpa [Event.inCheck] using h
  · intro hflag
    have hflag1 : isOneFileFlag a1 = false := by
      cases hb : isOneFileFlag a1 with
      | false => rfl
      | true => exact absurd (hiff.mp hb) hflag
    have hrun := main_two env a0 a1 a2 rest (Proc.start fds) hflag1 (hopen1 hflag) hopen2
    refine ⟨_, hrun, rfl, rfl, ?_, ?_⟩
    · simp [Proc.start, opened]
    · intro pid p out hmem
      rw [hrun] at hmem
      rcases (Adds.checkTwoFiles env a1 a2).mem _ _ hmem with h | h
      · simp [Proc.start] at h
      · simpa [Event.inCheck] using h

/-- Witness for C7: the flag written `--One-File`, the file `a` and a literal. -/
theorem main_dispatch_witness :
    ∃ a3 rest2 s1, [[49]] = a3 :: rest2 ∧
      main demoEnv [[105], bytes "--One-File", [97], [49]] (Proc.start [0, 1, 2])
        = checkOneFile demoEnv [97] a3 s1 ∧
      s1.openFds = [0, 1, 2] ∧ s1.children = [] ∧ opened s1.trace = [[97]] ∧
      ∀ pid p out, Event.fork pid p out ∈
        (main demoEnv [[105], bytes "--One-File", [97], [49]]
          (Proc.start [0, 1, 2])).state.trace → p = [97] :=
  (main_dispatch demoEnv [105] (bytes "--One-File") [97] [[49]] [0, 1, 2] (by decide)
    (by decide) (by decide) (by decide)).1 (by decide)

/-- C10, as stated, fails: with three file paths (`argc = 4`) `main` opens the first two
and returns the result of their comparison. -/
theorem main_extra_argument_compared :
    ∃ s', main demoEnv [[105], [97], [98], [99]] (Proc.start [0, 1, 2]) = .ret 1 s' ∧
      opened s'.trace = [[97], [98]] := by
  have hrun := main_two demoEnv [105] [97] [98] [[99]] (Proc.start [0, 1, 2]) (by decide)
    (by decide) (by decide)
  have e1 := runChild_sha512sum demoEnv demoDigest demoFs [97] [] rfl rfl (by decide)
  have e2 := runChild_sha512sum demoEnv demoDigest demoFs [98] [1] rfl rfl (by decide)
  have hd1 := demoDigest_isDigest []
  have hd2 := demoDigest_isDigest [1]
  obtain ⟨r1, w1, r2, w2, c1, c2, rest, -, -, -, h⟩ :=
    checkTwoFiles_run demoEnv [97] [98]
      { Proc.start [0, 1, 2] with trace := (Proc.start [0, 1, 2]).trace ++
            [.argv 1, .argv 1, .argv 1,
             .openFile [97] (some (lowestFree (Proc.start [0, 1, 2]).openFds)),
             .argv 2,
             .openFile [98] (some (lowestFree (lowestFree (Proc.start [0, 1, 2]).openFds ::
               (Proc.start [0, 1, 2]).openFds))),
             .close (lowestFree (lowestFree (Proc.start [0, 1, 2]).openFds ::
               (Proc.start [0, 1, 2]).openFds)) true,
             .close (lowestFree (Proc.start [0, 1, 2]).openFds) true,
             .argv 1, .argv 1, .argv 2] }
      (fun _ => rfl) (by simp [e1]) (by simp [e2])
  rw [hrun, h, e1, e2]
  simp only [store_calloc _ _ hd1.1, store_calloc _ _ hd2.1]
  rw [if_neg (fun h0 => absurd
    ((strcmp_eq_zero_iff _ _ [] [] hd1.ne_zero hd2.ne_zero).mp h0) (by decide))]
  refine ⟨_, rfl, ?_⟩
  simp [Proc.start, opened, opened_append]

/-- C10, amended: when `argv[1]` is not the one-file flag, `main` compares `argv[1]` and
`argv[2]` as soon as at least two arguments follow the command name and both files open,
whatever follows them; with fewer arguments it prints the usage message, opens no file
and runs no comparison. -/
theorem main_two_file_arguments (env : Env) (argv : List CStr) (fds : List Nat)
    (hnf : ∀ a, argv.get? 1 = some a → isOneFileFlag a = false) :
    (argv.length < 3 →
      main env argv (Proc.start fds) = .ret (-1) { Proc.start fds with trace := [.usage] }) ∧
    (∀ a0 a1 a2 rest, argv = a0 :: a1 :: a2 :: rest → env.openable a1 = true →
      env.openable a2 = true →
      ∃ s1, main env argv (Proc.start fds) = checkTwoFiles env a1 a2 s1 ∧
        s1.openFds = fds ∧ s1.children = [] ∧ opened s1.trace = [a1, a2]) := by
  refine ⟨?_, ?_⟩
  · intro hlen
    rw [main_short env argv (Proc.start fds) hlen]
    rfl
  · intro a0 a1 a2 rest hargv h1 h2
    subst hargv
    have hflag : isOneFileFlag a1 = false := hnf a1 rfl
    refine ⟨_, main_two env a0 a1 a2 rest (Proc.start fds) hflag h1 h2, rfl, rfl, ?_⟩
    simp [Proc.start, opened]

/-- Witness for C10: three file paths, of which the first two are compared. -/
theorem main_two_file_arguments_witness :
    ∃ s1, main demoEnv [[105], [97], [98], [99]] (Proc.start [0, 1, 2])
        = checkTwoFiles demoEnv [97] [98] s1 ∧
      s1.openFds = [0, 1, 2] ∧ s1.children = [] ∧ opened s1.trace = [[97], [98]] :=
  (main_two_file_arguments demoEnv [[105], [97], [98], [99]] [0, 1, 2] (by decide)).2
    [105] [97] [98] [[99]] rfl (by decide) (by decide)

end IsSame
